import Mathlib

/-!
# runbed/warnings: a shallow embedding and its verification

The Go package threads a `Writer` through a `context.Context`, buffers
warnings in a `Collector`, and composes writers (`NewMultiWriter`, `Map`,
`Filter`, `Reduce`, `Tap`).

Modelling conventions
* Go interface values of type `Warning` are values of `Warning`; the nil
  interface is `Warning.nil`.
* Go `error` values are `Option GoError`; `none` is the nil error.
* Mutable objects are modelled by explicit state passing: a method that
  mutates its receiver returns the new receiver state next to its results.
  A `Writer σ` / `Reader σ` is the method value of a Go writer / reader whose
  reachable mutable state is a store of type `σ`.
* The mutex of `Collector` is not modelled: every method body is one atomic
  step of the sequential model.
* Loops over a `Reader` carry fuel; `none` means the fuel ran out.
* What a writer "receives" is observed through a trace: `Writer.traced i u` behaves as `u`
  and records each invocation as `Event.WriteWarning i wrr`.
* `Reduce` allocates a collector: the store `σ` grows to `σ × Collector`, and the writers
  bound before act on the `σ` part only (`Writer.lift`, `Context.lift`).
-/

namespace warnings

/-! ## Values -/

/-- A value of the Go interface type `Warning` (warnings.go): the nil interface, or a
reference `ref` to an implementation whose `Warn()` method returns `msg`. -/
inductive Warning where
  | nil : Warning
  | mk (ref : Nat) (msg : String) : Warning
deriving DecidableEq, Repr

/-- A non-nil Go error value, as far as `errors.Is` can tell its shape: a plain error
(`errors.New`, `fmt.Errorf` without `%w`) identified by `id`, an error wrapping one other
error (`fmt.Errorf` with `%w`), the result of `errors.Join`, or a value of a user-defined
error type, identified by `id`. The first three are pointers and comparable. For a
user-defined error, `comparable` tells whether `==` may be applied to it and holds between
the value and itself (it does not for a slice type, nor for a struct with a NaN field), and
`targets` lists the targets for which its method `Is(target)` returns true (none when the
type has no such method); it has no `Unwrap` method. Two `joinError` values are taken to be
the same value when their members are. -/
inductive GoError where
  | errorString (id : Nat) : GoError
  | wrapError (id : Nat) (err : GoError) : GoError
  | joinError (errs : List GoError) : GoError
  | custom (id : Nat) (comparable : Bool) (targets : List GoError) : GoError

/-- A Go `error` interface value; `none` is nil. -/
abbrev error := Option GoError

mutual
/-- Identity of two non-nil error values. -/
def GoError.beq : GoError → GoError → Bool
  | .errorString a, .errorString b => a == b
  | .wrapError a e, .wrapError b f => a == b && GoError.beq e f
  | .joinError es, .joinError fs => GoError.beqList es fs
  | .custom a ca ta, .custom b cb tb => a == b && ca == cb && GoError.beqList ta tb
  | _, _ => false
/-- Pointwise identity of two lists of error values. -/
def GoError.beqList : List GoError → List GoError → Bool
  | [], [] => true
  | e :: es, f :: fs => GoError.beq e f && GoError.beqList es fs
  | _, _ => false
end

/-- Whether Go `==` holds between an error value and itself: `reflectlite.TypeOf(target)
.Comparable()` in `errors.Is`, false also for a value that differs from itself. -/
def GoError.comparable : GoError → Bool
  | .custom _ c _ => c
  | _ => true

/-- Whether `target` is one of the targets in `targets`. -/
def GoError.elem (target : GoError) : List GoError → Bool
  | [] => false
  | t :: ts => GoError.beq t target || GoError.elem target ts

mutual
/-- The loop of `errors.Is` (standard library) for a non-nil `err` and a non-nil `target`:
`targetComparable && err == target`, then the method `Is` of `err` when it has one, then
`Unwrap() error` or every member of `Unwrap() []error`. -/
def errors.is : GoError → GoError → Bool
  | .errorString i, target => target.comparable && GoError.beq (.errorString i) target
  | .wrapError i inner, target =>
      (target.comparable && GoError.beq (.wrapError i inner) target)
        || errors.is inner target
  | .joinError errs, target =>
      (target.comparable && GoError.beq (.joinError errs) target)
        || errors.isAny errs target
  | .custom i c targets, target =>
      (target.comparable && GoError.beq (.custom i c targets) target)
        || GoError.elem target targets
/-- The `for _, err := range x.Unwrap()` branch of `errors.Is`. -/
def errors.isAny : List GoError → GoError → Bool
  | [], _ => false
  | e :: es, target => errors.is e target || errors.isAny es target
end

/-- Go `errors.Is(err, target)`: with a nil argument it is `err == target`. -/
def errors.Is (err target : error) : Bool :=
  match err, target with
  | none, none => true
  | none, some _ => false
  | some _, none => false
  | some e, some t => errors.is e t

/-- Go `errors.Join(errs...)`: nil values are discarded; nil when nothing is left. -/
def errors.Join (errs : List error) : error :=
  match errs.reduceOption with
  | [] => none
  | e :: es => some (GoError.joinError (e :: es))

/-- The sentinel `io.EOF` of the standard library. -/
def io.EOF : GoError := GoError.errorString 0

/-- The sentinel `ErrClosed` (errors.go), a plain error distinct from `io.EOF`. -/
def ErrClosed : GoError := GoError.errorString 1

/-! ## Writer and Reader -/

/-- The method `WriteWarning(wrr Warning) error` of a Go `Writer` whose mutable state lives
in a store of type `σ`. -/
abbrev Writer (σ : Type) := Warning → σ → error × σ

/-- The method `ReadWarning() (Warning, error)` of a Go `Reader` whose mutable state lives
in a store of type `σ`. -/
abbrev Reader (σ : Type) := σ → (Warning × error) × σ

/-! ## Collector (collector.go) -/

/-- The fields `buf` and `closed` of the Go struct `Collector`. -/
structure Collector where
  buf : List Warning
  closed : Bool
deriving DecidableEq, Repr

/-- Go `NewCollector()`: the zero value, open and empty. -/
def NewCollector : Collector := ⟨[], false⟩

/-- Go `(*Collector).Close`. -/
def Collector.Close (c : Collector) : error × Collector :=
  if c.closed then (some ErrClosed, c)
  else (none, ⟨[], true⟩)

/-- Go `(*Collector).WriteWarning`. -/
def Collector.WriteWarning (c : Collector) (wrr : Warning) : error × Collector :=
  if c.closed then (some ErrClosed, c)
  else (none, ⟨c.buf ++ [wrr], c.closed⟩)

/-- Go `(*Collector).ReadWarning`. -/
def Collector.ReadWarning (c : Collector) : (Warning × error) × Collector :=
  if c.closed then ((Warning.nil, some ErrClosed), c)
  else
    match c.buf with
    | [] => ((Warning.nil, some io.EOF), c)
    | w :: rest => ((w, none), ⟨rest, c.closed⟩)

/-- A `Collector` used through the `Writer` interface. -/
def Collector.writer : Writer Collector := fun wrr c => c.WriteWarning wrr

/-- A `Collector` used through the `Reader` interface. -/
def Collector.reader : Reader Collector := fun c => c.ReadWarning

/-- One call on a `Collector`. -/
inductive Op where
  | WriteWarning (wrr : Warning) : Op
  | ReadWarning : Op
  | Close : Op
deriving DecidableEq, Repr

/-- What one call on a `Collector` returned. -/
inductive Ret where
  | WriteWarning (err : error) : Ret
  | ReadWarning (wrr : Warning) (err : error) : Ret
  | Close (err : error) : Ret

/-- Perform one call. -/
def Collector.step (c : Collector) : Op → Ret × Collector
  | .WriteWarning wrr => (.WriteWarning (c.WriteWarning wrr).1, (c.WriteWarning wrr).2)
  | .ReadWarning => (.ReadWarning c.ReadWarning.1.1 c.ReadWarning.1.2, c.ReadWarning.2)
  | .Close => (.Close c.Close.1, c.Close.2)

/-- Perform a sequence of calls, one after the other, collecting what each returned. -/
def Collector.run : Collector → List Op → List Ret × Collector
  | c, [] => ([], c)
  | c, op :: ops => ((c.step op).1 :: (Collector.run (c.step op).2 ops).1,
      (Collector.run (c.step op).2 ops).2)

/-- The warnings passed to `WriteWarning` in a sequence of calls, in call order. -/
def Op.written : List Op → List Warning
  | [] => []
  | .WriteWarning wrr :: ops => wrr :: Op.written ops
  | _ :: ops => Op.written ops

/-- The warnings returned by the successful `ReadWarning` calls (nil error), in call order. -/
def Ret.readOk : List Ret → List Warning
  | [] => []
  | .ReadWarning wrr none :: rets => wrr :: Ret.readOk rets
  | _ :: rets => Ret.readOk rets

/-- What every call returns on a closed `Collector` according to the specification. -/
def Op.closedRet : Op → Ret
  | .WriteWarning _ => .WriteWarning (some ErrClosed)
  | .ReadWarning => .ReadWarning Warning.nil (some ErrClosed)
  | .Close => .Close (some ErrClosed)

/-- Write the warnings `ws` in order with `WriteWarning`, ignoring the returned errors. -/
def Collector.writeAll (c : Collector) (ws : List Warning) : Collector :=
  ws.foldl (fun c wrr => (c.WriteWarning wrr).2) c

/-! ## ReadAll (reader.go) -/

/-- The `for` loop of Go `ReadAll`; `result` is the slice accumulated so far. -/
def ReadAll.loop {σ : Type} (r : Reader σ) :
    Nat → σ → List Warning → Option ((List Warning × error) × σ)
  | 0, _, _ => none
  | fuel + 1, s, result =>
    match r s with
    | ((w, err), s1) =>
      if errors.Is err (some io.EOF) then some ((result, none), s1)
      else if err.isSome then some (([], err), s1)
      else ReadAll.loop r fuel s1 (result ++ [w])

/-- Go `ReadAll(r)`, run with `fuel` iterations at most. -/
def ReadAll {σ : Type} (r : Reader σ) (fuel : Nat) (s : σ) :
    Option ((List Warning × error) × σ) :=
  ReadAll.loop r fuel s []

/-- The type `mockReaderResult` of reader_test.go. -/
abbrev mockReaderResult := Warning × error

/-- The method `(*mockReader).ReadWarning` of reader_test.go; the store is the field `results`.
The error returned when no result is left is the plain error `errorString 2`. -/
def mockReader : Reader (List mockReaderResult)
  | [] => ((Warning.nil, some (GoError.errorString 2)), [])
  | result :: rest => (result, rest)

/-- Starting in store `s`, the next reads of `r` return the warnings `vs`, each with a nil
error, and leave the store `s1`. -/
def Reader.yields {σ : Type} (r : Reader σ) : List Warning → σ → σ → Prop
  | [], s, s1 => s = s1
  | v :: vs, s, s1 => (r s).1 = (v, none) ∧ Reader.yields r vs (r s).2 s1

/-! ## MultiWriter (writer.go) -/

/-- The `for _, w := range w.writers` loop of `(*multiWriter).WriteWarning`; `errs` is the
slice of errors accumulated so far. -/
def multiWriter.range {σ : Type} (wrr : Warning) :
    List (Writer σ) → List error → σ → List error × σ
  | [], errs, s => (errs, s)
  | w :: rest, errs, s =>
    if (w wrr s).1.isSome then multiWriter.range wrr rest (errs ++ [(w wrr s).1]) (w wrr s).2
    else multiWriter.range wrr rest errs (w wrr s).2

/-- Go `(*multiWriter).WriteWarning`; `writers` is the field of the receiver. -/
def multiWriter.WriteWarning {σ : Type} (writers : List (Writer σ)) : Writer σ :=
  fun wrr s =>
    (errors.Join (multiWriter.range wrr writers [] s).1,
      (multiWriter.range wrr writers [] s).2)

/-- Go `NewMultiWriter(writers...)`, for non-nil writers. -/
def NewMultiWriter {σ : Type} (writers : List (Writer σ)) : Writer σ :=
  multiWriter.WriteWarning writers

/-! ## The context and its writer (warnings.go) -/

/-- A `context.Context`, as far as the key `writerKey{}` can tell: the background context,
a context derived with `context.WithValue(parent, writerKey{}, val)` where `val` is a
`Writer` interface value (`none` is nil), or a context derived from `parent` in any other
way (another key, a deadline, a cancel function). -/
inductive Context (σ : Type) where
  | Background : Context σ
  | WithValue (parent : Context σ) (val : Option (Writer σ)) : Context σ
  | WithOther (parent : Context σ) : Context σ

/-- Go `ctx.Value(writerKey{})`, together with the type assertion `.(Writer)` of `getWriter`,
which fails on a nil interface. -/
def Context.Value {σ : Type} : Context σ → Option (Writer σ)
  | .Background => none
  | .WithValue _ val => val
  | .WithOther parent => parent.Value

/-- Go `setWriter`. -/
def setWriter {σ : Type} (ctx : Context σ) (w : Option (Writer σ)) : Context σ :=
  Context.WithValue ctx w

/-- Go `getWriter`. -/
def getWriter {σ : Type} (ctx : Context σ) : Option (Writer σ) :=
  ctx.Value

/-- Go `resetWriter`. -/
def resetWriter {σ : Type} (ctx : Context σ) (w : Option (Writer σ)) : Context σ :=
  setWriter (setWriter ctx none) w

/-- The `for _, wrr := range wrrs` loop of `Warn`; `errs` is the slice of errors accumulated
so far. -/
def Warn.range {σ : Type} (w : Writer σ) : List Warning → List error → σ → List error × σ
  | [], errs, s => (errs, s)
  | wrr :: rest, errs, s =>
    if (w wrr s).1.isSome then Warn.range w rest (errs ++ [(w wrr s).1]) (w wrr s).2
    else Warn.range w rest errs (w wrr s).2

/-- Go `Warn(ctx, wrrs...)`. -/
def Warn {σ : Type} (ctx : Context σ) (wrrs : List Warning) (s : σ) : error × σ :=
  match getWriter ctx with
  | none => (none, s)
  | some w => (errors.Join (Warn.range w wrrs [] s).1, (Warn.range w wrrs [] s).2)

/-- Successive calls `Warn(ctx, b...)`, one for each batch `b` of `bs` in order, with the
returned errors ignored: the store after the last call. -/
def Warn.each {σ : Type} (ctx : Context σ) (bs : List (List Warning)) (s : σ) : σ :=
  bs.foldl (fun s b => (Warn ctx b s).2) s

/-- Go `Attach(ctx, w)`, for a non-nil writer `w`. -/
def Attach {σ : Type} (ctx : Context σ) (w : Writer σ) : Context σ :=
  match getWriter ctx with
  | some found => setWriter ctx (some (NewMultiWriter [found, w]))
  | none => setWriter ctx (some w)

/-- Go `Detach(ctx)`. -/
def Detach {σ : Type} (ctx : Context σ) : Context σ :=
  match getWriter ctx with
  | none => ctx
  | some _ => setWriter ctx none

/-- A value of Go type `any` passed to `Warnf`: a `Warning` interface value converted to
`any` (`warning nil` is the nil interface), a string, or a value of some other type that
does not implement `Warning`, identified by `id`. -/
inductive Any where
  | warning (wrr : Warning) : Any
  | string (str : String) : Any
  | other (id : Nat) : Any
deriving DecidableEq, Repr

/-- The method `Warn()` of the interface `Warning`: the message text of a non-nil warning.
On the nil interface the call panics, which `none` stands for. -/
def Warning.Warn : Warning → Option String
  | .nil => none
  | .mk _ msg => some msg

/-- One step of the loop of `Warnf`: when the assertion `arg.(Warning)` succeeds, which it
does on a non-nil warning only, the argument becomes the string `wrr.Warn()`. -/
def Warnf.arg : Any → Any
  | .warning (.mk _ msg) => .string msg
  | arg => arg

/-- Go `Warnf(ctx, format, args...)`. `Sprintf` is `fmt.Sprintf` and `ref` the address of
the `warningString` that is allocated. -/
def Warnf {σ : Type} (Sprintf : String → List Any → String) (ref : Nat) (ctx : Context σ)
    (format : String) (args : List Any) (s : σ) : error × σ :=
  Warn ctx [Warning.mk ref (Sprintf format (args.map Warnf.arg))] s

/-! ## Scanner (scanner.go) -/

/-- The Go struct `scanner`; the mutable state of the reader `r` lives in the store. -/
structure scanner (σ : Type) where
  r : Reader σ
  wrr : Warning
  err : error

/-- Go `NewScanner(r)`. -/
def NewScanner {σ : Type} (r : Reader σ) : scanner σ := ⟨r, Warning.nil, none⟩

/-- Go `(*scanner).Scan`: the result, the scanner and the store after the call. -/
def scanner.Scan {σ : Type} (sc : scanner σ) (s : σ) : Bool × scanner σ × σ :=
  if sc.err.isSome then (false, sc, s)
  else
    match sc.r s with
    | ((wrr, err), s1) =>
      if errors.Is err (some io.EOF) then (false, ⟨sc.r, Warning.nil, sc.err⟩, s1)
      else if err.isSome then (false, ⟨sc.r, sc.wrr, err⟩, s1)
      else (true, ⟨sc.r, wrr, sc.err⟩, s1)

/-- Go `(*scanner).Warning`. -/
def scanner.Warning {σ : Type} (sc : scanner σ) : Warning := sc.wrr

/-- Go `(*scanner).Err`. -/
def scanner.Err {σ : Type} (sc : scanner σ) : error := sc.err

/-- The first `n` calls of `Scan`: for each call what it returned, with `Warning()` and
`Err()` right after it; then the scanner and the store after the last call. -/
def scanner.run {σ : Type} :
    Nat → scanner σ → σ → List (Bool × warnings.Warning × error) × (scanner σ × σ)
  | 0, sc, s => ([], (sc, s))
  | n + 1, sc, s =>
    (((sc.Scan s).1, (sc.Scan s).2.1.Warning, (sc.Scan s).2.1.Err)
        :: (scanner.run n (sc.Scan s).2.1 (sc.Scan s).2.2).1,
      (scanner.run n (sc.Scan s).2.1 (sc.Scan s).2.2).2)

/-! ## Map, Filter, Reduce, Tap (helpers.go) -/

/-- Go `(*mapWriter).WriteWarning`; `w` and `fn` are the fields of the receiver. -/
def mapWriter.WriteWarning {σ : Type} (w : Writer σ) (fn : Warning → Warning) : Writer σ :=
  fun wrr s => w (fn wrr) s

/-- Go `Map(ctx, fn)`. -/
def Map {σ : Type} (ctx : Context σ) (fn : Warning → Warning) : Context σ :=
  match getWriter ctx with
  | none => ctx
  | some w => resetWriter ctx (some (mapWriter.WriteWarning w fn))

/-- Go `(*filterWriter).WriteWarning`; `w` and `fn` are the fields of the receiver. -/
def filterWriter.WriteWarning {σ : Type} (w : Writer σ) (fn : Warning → Bool) : Writer σ :=
  fun wrr s => if fn wrr then w wrr s else (none, s)

/-- Go `Filter(ctx, fn)`. -/
def Filter {σ : Type} (ctx : Context σ) (fn : Warning → Bool) : Context σ :=
  match getWriter ctx with
  | none => ctx
  | some w => resetWriter ctx (some (filterWriter.WriteWarning w fn))

/-- Go `(*tapWriter).WriteWarning`; `w` and `fn` are the fields of the receiver. The callback
`fn` returns nothing and is called for its effect on the store. -/
def tapWriter.WriteWarning {σ : Type} (w : Writer σ) (fn : Warning → σ → σ) : Writer σ :=
  fun wrr s => w wrr (fn wrr s)

/-- Go `Tap(ctx, fn)`. -/
def Tap {σ : Type} (ctx : Context σ) (fn : Warning → σ → σ) : Context σ :=
  match getWriter ctx with
  | none => ctx
  | some w => resetWriter ctx (some (tapWriter.WriteWarning w fn))

/-- A writer of a store `σ` seen as a writer of a larger store `σ × τ`: it leaves the new
part alone. -/
def Writer.lift {σ τ : Type} (w : Writer σ) : Writer (σ × τ) :=
  fun wrr st => ((w wrr st.1).1, ((w wrr st.1).2, st.2))

/-- A context whose writers act on `σ`, seen from a program whose store has grown to
`σ × τ`. -/
def Context.lift {σ τ : Type} : Context σ → Context (σ × τ)
  | .Background => .Background
  | .WithValue parent val => .WithValue parent.lift (val.map Writer.lift)
  | .WithOther parent => .WithOther parent.lift

/-- The collector `input` that `Reduce` allocates, as a writer: it lives in the new part of
the store. -/
def Reduce.input {σ : Type} : Writer (σ × Collector) :=
  fun wrr st => ((st.2.WriteWarning wrr).1, (st.1, (st.2.WriteWarning wrr).2))

/-- The closure `flush` returned by Go `Reduce` when a writer `w` is active. `zero` is
`*new(T)` and `toWarning` the conversion of a `T` to the interface `Warning`. The deferred
`input.Close()` runs on every return. -/
def Reduce.flush {σ T : Type} (zero : T) (toWarning : T → Warning) (w : Writer σ)
    (fn : T → Warning → T) (fuel : Nat) (st : σ × Collector) : Option (σ × Collector) :=
  match ReadAll Collector.reader fuel st.2 with
  | none => none
  | some ((wrrs, err), input) =>
    if err.isSome || wrrs.length == 0 then some (st.1, input.Close.2)
    else some ((w (toWarning (wrrs.foldl fn zero)) st.1).2, input.Close.2)

/-- Go `Reduce(ctx, fn)`, called in store `s`. The store of the result has one more
component, the collector `input`; when no writer is active nothing is allocated, `flush`
is `func() {}` and that component is never used. -/
def Reduce {σ T : Type} (zero : T) (toWarning : T → Warning) (ctx : Context σ)
    (fn : T → Warning → T) (s : σ) :
    (Context (σ × Collector) × (Nat → σ × Collector → Option (σ × Collector)))
      × (σ × Collector) :=
  match getWriter ctx with
  | none => ((ctx.lift, fun _ st => some st), (s, NewCollector))
  | some w =>
    ((resetWriter ctx.lift (some Reduce.input), Reduce.flush zero toWarning w fn),
      (s, NewCollector))

/-! ## Observing calls -/

/-- An observable call: `WriteWarning(wrr)` invoked on the writer numbered `i`, or the
callback of `Tap` invoked with `wrr`. -/
inductive Event where
  | WriteWarning (i : Nat) (wrr : Warning) : Event
  | fn (wrr : Warning) : Event
deriving DecidableEq, Repr

/-- A store together with the trace of the calls observed so far. -/
abbrev Traced (σ : Type) := σ × List Event

/-- The writer `u`, numbered `i`, with every invocation recorded in the trace. -/
def Writer.traced {σ : Type} (i : Nat) (u : Writer σ) : Writer (Traced σ) :=
  fun wrr st => ((u wrr st.1).1, ((u wrr st.1).2, st.2 ++ [Event.WriteWarning i wrr]))

/-- The writers `ds`, numbered from `i` on in the order of the list, each traced. -/
def Writer.tracedFrom {σ : Type} : Nat → List (Writer σ) → List (Writer (Traced σ))
  | _, [] => []
  | i, d :: ds => Writer.traced i d :: Writer.tracedFrom (i + 1) ds

/-- The callback `g` of `Tap` with every invocation recorded in the trace. -/
def Event.tapped {σ : Type} (g : Warning → σ → σ) : Warning → Traced σ → Traced σ :=
  fun wrr st => (g wrr st.1, st.2 ++ [Event.fn wrr])

/-- The trace left when, for each warning of `ws` in order, the callback of `Tap` is invoked
with it and then writer 0 receives it. -/
def Event.tapTrace : List Warning → List Event
  | [] => []
  | wrr :: ws => Event.fn wrr :: Event.WriteWarning 0 wrr :: Event.tapTrace ws

/-- The trace left when, for each warning of `ws` in order, writer 0 receives it and then
writer 1 receives it. -/
def Event.fanTrace : List Warning → List Event
  | [] => []
  | wrr :: ws => Event.WriteWarning 0 wrr :: Event.WriteWarning 1 wrr :: Event.fanTrace ws

/-- The events of a trace that are calls of `WriteWarning` on the writer numbered `i`. -/
def Event.ofWriter (i : Nat) (log : List Event) : List Event :=
  log.filter (fun e => match e with
    | Event.WriteWarning j _ => j == i
    | Event.fn _ => false)

/-- The errors `u` returns when it is called once with each warning of `ws`, in order. -/
def Writer.returned {σ : Type} (u : Writer σ) : List Warning → σ → List error
  | [], _ => []
  | wrr :: ws, s => (u wrr s).1 :: Writer.returned u ws (u wrr s).2

/-- The writer `u` with the error it returns replaced by nil. -/
def Writer.mute {σ : Type} (u : Writer σ) : Writer σ :=
  fun wrr s => (none, (u wrr s).2)

/-- Calling `flush` `n` times in a row, each call with the same fuel for its `ReadAll`. -/
def Reduce.flushTimes {τ : Type} (flush : Nat → τ → Option τ) (fuel : Nat) :
    Nat → τ → Option τ
  | 0, st => some st
  | n + 1, st => (flush fuel st).bind (Reduce.flushTimes flush fuel n)

/-- The argument of `Warnf` as the specification describes it: an argument that is itself
a Warning is replaced by its message text `Warn()`, any other argument is kept. -/
def Any.text : Any → Any
  | .warning wrr =>
    match wrr.Warn with
    | some msg => .string msg
    | none => .warning wrr
  | .string str => .string str
  | .other id => .other id

/-- The store after `u` has been called once with each warning of `ws`, in order. -/
def Writer.deliver {σ : Type} (u : Writer σ) (ws : List Warning) (s : σ) : σ :=
  ws.foldl (fun s wrr => (u wrr s).2) s

/-- Calling every writer of `ds` once with `wrr`, in the order of the list: the error each
call returned, in that order, and the final store. -/
def Writer.each {σ : Type} (wrr : Warning) : List (Writer σ) → σ → List error × σ
  | [], s => ([], s)
  | d :: ds, s => ((d wrr s).1 :: (Writer.each wrr ds (d wrr s).2).1,
      (Writer.each wrr ds (d wrr s).2).2)

/-- The type `mockWriter` of writer_test.go; the store is the field `buf`, `result` the
other field. -/
def mockWriter (result : error) : Writer (List Warning) :=
  fun wrr buf => if result.isSome then (result, buf) else (result, buf ++ [wrr])

/-! ## Facts about the error values -/

mutual
theorem GoError.beq_iff : ∀ (a b : GoError), GoError.beq a b = true ↔ a = b
  | .errorString a, .errorString b => by simp [GoError.beq]
  | .wrapError a e, .wrapError b f => by simp [GoError.beq, GoError.beq_iff e f]
  | .joinError es, .joinError fs => by simp [GoError.beq, GoError.beqList_iff es fs]
  | .custom a ca ta, .custom b cb tb => by
      simp [GoError.beq, GoError.beqList_iff ta tb, and_assoc]
  | .errorString _, .wrapError _ _ => by simp [GoError.beq]
  | .errorString _, .joinError _ => by simp [GoError.beq]
  | .errorString _, .custom _ _ _ => by simp [GoError.beq]
  | .wrapError _ _, .errorString _ => by simp [GoError.beq]
  | .wrapError _ _, .joinError _ => by simp [GoError.beq]
  | .wrapError _ _, .custom _ _ _ => by simp [GoError.beq]
  | .joinError _, .errorString _ => by simp [GoError.beq]
  | .joinError _, .wrapError _ _ => by simp [GoError.beq]
  | .joinError _, .custom _ _ _ => by simp [GoError.beq]
  | .custom _ _ _, .errorString _ => by simp [GoError.beq]
  | .custom _ _ _, .wrapError _ _ => by simp [GoError.beq]
  | .custom _ _ _, .joinError _ => by simp [GoError.beq]
theorem GoError.beqList_iff : ∀ (a b : List GoError), GoError.beqList a b = true ↔ a = b
  | [], [] => by simp [GoError.beqList]
  | e :: es, f :: fs => by
      simp [GoError.beqList, GoError.beq_iff e f, GoError.beqList_iff es fs]
  | [], _ :: _ => by simp [GoError.beqList]
  | _ :: _, [] => by simp [GoError.beqList]
end

theorem GoError.beq_self (a : GoError) : GoError.beq a a = true :=
  (GoError.beq_iff a a).2 rfl

theorem errors.is_self (e : GoError) (hc : e.comparable = true) : errors.is e e = true := by
  cases e <;> simp [errors.is, GoError.beq_self, hc]

theorem errors.Is_nil_EOF : errors.Is none (some io.EOF) = false := rfl

theorem errors.Is_EOF_EOF : errors.Is (some io.EOF) (some io.EOF) = true := by
  simp [errors.Is, errors.is, io.EOF, GoError.beq, GoError.comparable]

theorem errors.Is_ErrClosed_EOF : errors.Is (some ErrClosed) (some io.EOF) = false := by
  simp [errors.Is, errors.is, ErrClosed, io.EOF, GoError.beq, GoError.comparable]

/-! ## Collector -/

theorem Collector.writeAll_open (ws : List Warning) (buf : List Warning) :
    Collector.writeAll ⟨buf, false⟩ ws = ⟨buf ++ ws, false⟩ := by
  induction ws generalizing buf with
  | nil => simp [Collector.writeAll]
  | cons w ws ih =>
    have h := ih (buf ++ [w])
    simp only [Collector.writeAll, List.foldl_cons] at h ⊢
    simpa [Collector.WriteWarning] using h

theorem ReadAll.loop_collector_open (buf : List Warning) (k : Nat) (acc : List Warning) :
    ReadAll.loop Collector.reader (buf.length + 1 + k) ⟨buf, false⟩ acc
      = some ((acc ++ buf, none), ⟨[], false⟩) := by
  induction buf generalizing acc with
  | nil =>
    simp [ReadAll.loop, Nat.add_comm, Collector.reader, Collector.ReadWarning, errors.Is_EOF_EOF]
  | cons w rest ih =>
    have h := ih (acc ++ [w])
    have e : (w :: rest).length + 1 + k = (rest.length + 1 + k) + 1 := by
      simp only [List.length_cons]; omega
    rw [e]
    simp only [ReadAll.loop, Collector.reader, Collector.ReadWarning] at h ⊢
    simpa [errors.Is_nil_EOF] using h

theorem Collector.run_closed (ops : List Op) (buf : List Warning) :
    Collector.run ⟨buf, true⟩ ops = (ops.map Op.closedRet, ⟨buf, true⟩) := by
  induction ops with
  | nil => rfl
  | cons op ops ih =>
    cases op <;>
      simp [Collector.run, Collector.step, Collector.WriteWarning, Collector.ReadWarning,
        Collector.Close, Op.closedRet, ih]

theorem Collector.run_open_invariant (ops : List Op) (hops : Op.Close ∉ ops)
    (buf : List Warning) :
    buf ++ Op.written ops
        = Ret.readOk (Collector.run ⟨buf, false⟩ ops).1 ++ (Collector.run ⟨buf, false⟩ ops).2.buf
      ∧ (Collector.run ⟨buf, false⟩ ops).2.closed = false := by
  induction ops generalizing buf with
  | nil => simp [Collector.run, Op.written, Ret.readOk]
  | cons op ops ih =>
    have hops1 : Op.Close ∉ ops := fun h => hops (List.mem_cons_of_mem _ h)
    cases op with
    | WriteWarning wrr =>
      have h := ih hops1 (buf ++ [wrr])
      simpa [Collector.run, Collector.step, Collector.WriteWarning, Op.written, Ret.readOk]
        using h
    | ReadWarning =>
      cases buf with
      | nil =>
        have h := ih hops1 []
        simpa [Collector.run, Collector.step, Collector.ReadWarning, Op.written, Ret.readOk]
          using h
      | cons v rest =>
        have h := ih hops1 rest
        simp only [Collector.run, Collector.step, Collector.ReadWarning, Op.written,
          Ret.readOk] at h ⊢
        simpa using h
    | Close => exact absurd (List.mem_cons_self _ _) hops

theorem ReadAll.loop_eof {σ : Type} (r : Reader σ) (vs : List Warning) (s s1 s2 : σ)
    (w : Warning) (e : error) (k : Nat) (acc : List Warning)
    (hy : Reader.yields r vs s s1) (hr : r s1 = ((w, e), s2))
    (he : errors.Is e (some io.EOF) = true) :
    ReadAll.loop r (vs.length + 1 + k) s acc = some ((acc ++ vs, none), s2) := by
  induction vs generalizing s acc with
  | nil =>
    simp only [Reader.yields] at hy
    subst hy
    simp [ReadAll.loop, Nat.add_comm, hr, he]
  | cons v vs ih =>
    obtain ⟨h1, h2⟩ := hy
    have h := ih (r s).2 (acc ++ [v]) h2
    have e1 : (v :: vs).length + 1 + k = (vs.length + 1 + k) + 1 := by
      simp only [List.length_cons]; omega
    have e2 : r s = ((v, none), (r s).2) := by rw [← h1]
    rw [e1, ReadAll.loop, e2]
    simpa [errors.Is_nil_EOF] using h

theorem ReadAll.loop_failure {σ : Type} (r : Reader σ) (vs : List Warning) (s s1 s2 : σ)
    (w : Warning) (e : GoError) (k : Nat) (acc : List Warning)
    (hy : Reader.yields r vs s s1) (hr : r s1 = ((w, some e), s2))
    (he : errors.Is (some e) (some io.EOF) = false) :
    ReadAll.loop r (vs.length + 1 + k) s acc = some (([], some e), s2) := by
  induction vs generalizing s acc with
  | nil =>
    simp only [Reader.yields] at hy
    subst hy
    simp [ReadAll.loop, Nat.add_comm, hr, he]
  | cons v vs ih =>
    obtain ⟨h1, h2⟩ := hy
    have h := ih (r s).2 (acc ++ [v]) h2
    have e1 : (v :: vs).length + 1 + k = (vs.length + 1 + k) + 1 := by
      simp only [List.length_cons]; omega
    have e2 : r s = ((v, none), (r s).2) := by rw [← h1]
    rw [e1, ReadAll.loop, e2]
    simpa [errors.Is_nil_EOF] using h

theorem ReadAll.loop_result {σ : Type} (r : Reader σ) (fuel : Nat) (s s1 : σ)
    (acc res : List Warning) (err : error)
    (h : ReadAll.loop r fuel s acc = some ((res, err), s1)) : res = [] ∨ err = none := by
  induction fuel generalizing s acc with
  | zero => simp [ReadAll.loop] at h
  | succ n ih =>
    rw [ReadAll.loop] at h
    split at h
    next w e s2 _ =>
      split at h
      · simp only [Option.some.injEq, Prod.mk.injEq] at h
        exact Or.inr h.1.2.symm
      · split at h
        · simp only [Option.some.injEq, Prod.mk.injEq] at h
          exact Or.inl h.1.1.symm
        · exact ih _ _ h

/-! ## Writers -/

theorem errors.Join_eq_none_iff (errs : List error) :
    errors.Join errs = none ↔ ∀ e ∈ errs, e = none := by
  induction errs with
  | nil => simp [errors.Join]
  | cons e errs ih =>
    cases e with
    | none => simpa [errors.Join] using ih
    | some e => simp [errors.Join, List.reduceOption_cons_of_some]

theorem errors.isAny_of_mem (e : GoError) (hc : e.comparable = true) (l : List GoError)
    (h : e ∈ l) : errors.isAny l e = true := by
  induction l with
  | nil => simp at h
  | cons a l ih =>
    rcases List.mem_cons.1 h with h1 | h1
    · subst h1; simp [errors.isAny, errors.is_self e hc]
    · simp [errors.isAny, ih h1]

theorem errors.Is_Join_of_mem (errs : List error) (e : GoError) (hc : e.comparable = true)
    (h : some e ∈ errs) : errors.Is (errors.Join errs) (some e) = true := by
  have hm : e ∈ errs.reduceOption := List.reduceOption_mem_iff.2 h
  unfold errors.Join
  cases hl : errs.reduceOption with
  | nil => rw [hl] at hm; simp at hm
  | cons a l =>
    rw [hl] at hm
    simp [errors.Is, errors.is, errors.isAny_of_mem e hc (a :: l) hm]

theorem errors.Join_filter_isSome (errs : List error) :
    errors.Join (errs.filter Option.isSome) = errors.Join errs := by
  have h : (errs.filter Option.isSome).reduceOption = errs.reduceOption := by
    induction errs with
    | nil => rfl
    | cons e errs ih =>
      cases e with
      | none => simpa using ih
      | some e => simp [List.reduceOption_cons_of_some, ih]
  simp [errors.Join, h]

theorem multiWriter.range_eq {σ : Type} (wrr : Warning) (ds : List (Writer σ))
    (errs : List error) (s : σ) :
    multiWriter.range wrr ds errs s
      = (errs ++ (Writer.each wrr ds s).1.filter Option.isSome, (Writer.each wrr ds s).2) := by
  induction ds generalizing errs s with
  | nil => simp [multiWriter.range, Writer.each]
  | cons d ds ih =>
    simp only [multiWriter.range, Writer.each]
    split
    next h => rw [ih]; simp [List.filter_cons, h]
    next h => rw [ih]; simp [List.filter_cons, h]

theorem Warn.range_snd {σ : Type} (w : Writer σ) (ws : List Warning) (errs : List error)
    (s : σ) : (Warn.range w ws errs s).2 = Writer.deliver w ws s := by
  induction ws generalizing errs s with
  | nil => rfl
  | cons wrr rest ih =>
    simp only [Writer.deliver] at ih
    simp only [Warn.range, Writer.deliver, List.foldl_cons]
    split
    · exact ih _ _
    · exact ih _ _

theorem Warn_snd {σ : Type} (ctx : Context σ) (w : Writer σ) (h : getWriter ctx = some w)
    (ws : List Warning) (s : σ) : (Warn ctx ws s).2 = Writer.deliver w ws s := by
  simp [Warn, h, Warn.range_snd]

theorem Writer.deliver_append {σ : Type} (w : Writer σ) (a b : List Warning) (s : σ) :
    Writer.deliver w (a ++ b) s = Writer.deliver w b (Writer.deliver w a s) := by
  simp [Writer.deliver, List.foldl_append]

theorem Warn.each_eq_deliver {σ : Type} (ctx : Context σ) (w : Writer σ)
    (h : getWriter ctx = some w) (bs : List (List Warning)) (s : σ) :
    Warn.each ctx bs s = Writer.deliver w bs.flatten s := by
  induction bs generalizing s with
  | nil => rfl
  | cons b bs ih =>
    have e : Warn.each ctx (b :: bs) s = Warn.each ctx bs (Warn ctx b s).2 := rfl
    rw [e, ih, Warn_snd ctx w h, List.flatten_cons, Writer.deliver_append]

theorem getWriter_resetWriter {σ : Type} (ctx : Context σ) (w : Option (Writer σ)) :
    getWriter (resetWriter ctx w) = w := rfl

theorem Writer.deliver_traced {σ : Type} (i : Nat) (u : Writer σ) (ws : List Warning)
    (s : σ) (log : List Event) :
    Writer.deliver (Writer.traced i u) ws (s, log)
      = (Writer.deliver u ws s, log ++ ws.map (Event.WriteWarning i)) := by
  induction ws generalizing s log with
  | nil => simp [Writer.deliver]
  | cons wrr rest ih =>
    have e : Writer.deliver (Writer.traced i u) (wrr :: rest) (s, log)
        = Writer.deliver (Writer.traced i u) rest
            ((u wrr s).2, log ++ [Event.WriteWarning i wrr]) := rfl
    have e1 : Writer.deliver u (wrr :: rest) s = Writer.deliver u rest (u wrr s).2 := rfl
    rw [e, e1, ih]
    simp

theorem Writer.deliver_mapWriter {σ : Type} (w : Writer σ) (fn : Warning → Warning)
    (ws : List Warning) (s : σ) :
    Writer.deliver (mapWriter.WriteWarning w fn) ws s = Writer.deliver w (ws.map fn) s := by
  induction ws generalizing s with
  | nil => rfl
  | cons wrr rest ih =>
    simp only [Writer.deliver] at ih
    simp only [Writer.deliver, List.foldl_cons, List.map_cons, mapWriter.WriteWarning]
    exact ih _

theorem Writer.deliver_filterWriter {σ : Type} (w : Writer σ) (fn : Warning → Bool)
    (ws : List Warning) (s : σ) :
    Writer.deliver (filterWriter.WriteWarning w fn) ws s
      = Writer.deliver w (ws.filter fn) s := by
  induction ws generalizing s with
  | nil => rfl
  | cons wrr rest ih =>
    simp only [Writer.deliver] at ih
    simp only [Writer.deliver, List.foldl_cons, filterWriter.WriteWarning, List.filter_cons]
    cases h : fn wrr
    · simpa using ih s
    · simpa using ih _

theorem Writer.deliver_tapWriter_traced {σ : Type} (u : Writer σ) (g : Warning → σ → σ)
    (ws : List Warning) (s : σ) (log : List Event) :
    Writer.deliver (tapWriter.WriteWarning (Writer.traced 0 u) (Event.tapped g)) ws (s, log)
      = (ws.foldl (fun s wrr => (u wrr (g wrr s)).2) s, log ++ Event.tapTrace ws) := by
  induction ws generalizing s log with
  | nil => simp [Writer.deliver, Event.tapTrace]
  | cons wrr rest ih =>
    have e : Writer.deliver (tapWriter.WriteWarning (Writer.traced 0 u) (Event.tapped g))
          (wrr :: rest) (s, log)
        = Writer.deliver (tapWriter.WriteWarning (Writer.traced 0 u) (Event.tapped g)) rest
            ((u wrr (g wrr s)).2, log ++ [Event.fn wrr] ++ [Event.WriteWarning 0 wrr]) := rfl
    rw [e, ih]
    simp [Event.tapTrace]

theorem Writer.each_tracedFrom {σ : Type} (wrr : Warning) (ds : List (Writer σ)) (i : Nat)
    (s : σ) (log : List Event) :
    (Writer.each wrr (Writer.tracedFrom i ds) (s, log)).2
      = ((Writer.each wrr ds s).2,
          log ++ (List.range' i ds.length).map (fun j => Event.WriteWarning j wrr)) := by
  induction ds generalizing i s log with
  | nil => simp [Writer.each, Writer.tracedFrom]
  | cons d ds ih =>
    simp only [Writer.each, Writer.tracedFrom, Writer.traced, List.length_cons,
      List.range'_succ, List.map_cons]
    rw [ih]
    simp

theorem Writer.deliver_input {σ : Type} (ws : List Warning) (s : σ) (buf : List Warning) :
    Writer.deliver (Reduce.input : Writer (σ × Collector)) ws (s, ⟨buf, false⟩)
      = (s, ⟨buf ++ ws, false⟩) := by
  induction ws generalizing buf with
  | nil => simp [Writer.deliver]
  | cons wrr rest ih =>
    simp only [Writer.deliver] at ih
    simp only [Writer.deliver, List.foldl_cons, Reduce.input, Collector.WriteWarning]
    simpa using ih (buf ++ [wrr])

theorem getWriter_lift {σ τ : Type} (ctx : Context σ) :
    getWriter (ctx.lift : Context (σ × τ)) = (getWriter ctx).map Writer.lift := by
  induction ctx with
  | Background => rfl
  | WithValue parent val _ => rfl
  | WithOther parent ih => simpa [getWriter, Context.lift, Context.Value] using ih

theorem Warn_of_no_writer {σ : Type} (ctx : Context σ) (h : getWriter ctx = none)
    (ws : List Warning) (s : σ) : Warn ctx ws s = (none, s) := by
  simp [Warn, h]

theorem Warn.range_returned {σ : Type} (w : Writer σ) (ws : List Warning) (errs : List error)
    (s : σ) :
    Warn.range w ws errs s
      = (errs ++ (Writer.returned w ws s).filter Option.isSome, Writer.deliver w ws s) := by
  induction ws generalizing errs s with
  | nil => simp [Warn.range, Writer.returned, Writer.deliver]
  | cons wrr rest ih =>
    have e : Writer.deliver w (wrr :: rest) s = Writer.deliver w rest (w wrr s).2 := rfl
    simp only [Warn.range, Writer.returned, e]
    split
    next h => rw [ih]; simp [List.filter_cons, h]
    next h => rw [ih]; simp [List.filter_cons, h]

theorem Writer.returned_traced {σ : Type} (i : Nat) (u : Writer σ) (ws : List Warning)
    (s : σ) (log : List Event) :
    Writer.returned (Writer.traced i u) ws (s, log) = Writer.returned u ws s := by
  induction ws generalizing s log with
  | nil => rfl
  | cons wrr rest ih =>
    have e : Writer.returned (Writer.traced i u) (wrr :: rest) (s, log)
        = (u wrr s).1 :: Writer.returned (Writer.traced i u) rest
            ((u wrr s).2, log ++ [Event.WriteWarning i wrr]) := rfl
    rw [e, ih]
    rfl

theorem Writer.deliver_fan {σ : Type} (u1 u2 : Writer σ) (ws : List Warning) (s : σ)
    (log : List Event) :
    Writer.deliver (NewMultiWriter [Writer.traced 0 u1, Writer.traced 1 u2]) ws (s, log)
      = (ws.foldl (fun s wrr => (u2 wrr (u1 wrr s).2).2) s, log ++ Event.fanTrace ws) := by
  induction ws generalizing s log with
  | nil => simp [Writer.deliver, Event.fanTrace]
  | cons wrr rest ih =>
    have e : Writer.deliver (NewMultiWriter [Writer.traced 0 u1, Writer.traced 1 u2])
          (wrr :: rest) (s, log)
        = Writer.deliver (NewMultiWriter [Writer.traced 0 u1, Writer.traced 1 u2]) rest
            ((u2 wrr (u1 wrr s).2).2,
              log ++ [Event.WriteWarning 0 wrr] ++ [Event.WriteWarning 1 wrr]) := by
      have e1 : (NewMultiWriter [Writer.traced 0 u1, Writer.traced 1 u2] wrr (s, log)).2
          = ((u2 wrr (u1 wrr s).2).2,
              log ++ [Event.WriteWarning 0 wrr] ++ [Event.WriteWarning 1 wrr]) := by
        simp [NewMultiWriter, multiWriter.WriteWarning, multiWriter.range_eq, Writer.each,
          Writer.traced]
      show Writer.deliver _ rest
        (NewMultiWriter [Writer.traced 0 u1, Writer.traced 1 u2] wrr (s, log)).2 = _
      rw [e1]
    rw [e, ih]
    simp [Event.fanTrace]

theorem Event.ofWriter_append (i : Nat) (a b : List Event) :
    Event.ofWriter i (a ++ b) = Event.ofWriter i a ++ Event.ofWriter i b := by
  simp [Event.ofWriter]

theorem Event.ofWriter_map_same (i : Nat) (ws : List Warning) :
    Event.ofWriter i (ws.map (Event.WriteWarning i)) = ws.map (Event.WriteWarning i) := by
  induction ws with
  | nil => rfl
  | cons w ws ih =>
    simp only [Event.ofWriter] at ih
    simp [Event.ofWriter, List.filter_cons, ih]

theorem Event.ofWriter_map_other (i j : Nat) (hij : j ≠ i) (ws : List Warning) :
    Event.ofWriter i (ws.map (Event.WriteWarning j)) = [] := by
  induction ws with
  | nil => rfl
  | cons w ws ih =>
    simp only [Event.ofWriter] at ih
    simp [Event.ofWriter, List.filter_cons, ih, hij]

theorem Event.ofWriter_fanTrace (ws : List Warning) :
    Event.ofWriter 0 (Event.fanTrace ws) = ws.map (Event.WriteWarning 0)
      ∧ Event.ofWriter 1 (Event.fanTrace ws) = ws.map (Event.WriteWarning 1) := by
  induction ws with
  | nil => exact ⟨rfl, rfl⟩
  | cons w ws ih =>
    obtain ⟨h0, h1⟩ := ih
    simp only [Event.ofWriter] at h0 h1
    constructor
    · simp [Event.ofWriter, Event.fanTrace, List.filter_cons, h0]
    · simp [Event.ofWriter, Event.fanTrace, List.filter_cons, h1]

/-! ## Scanner and flush -/

theorem Scan_run_exhausted {σ : Type} (r : Reader σ) (vs : List Warning) (s s1 s2 : σ)
    (w wrr0 : Warning) (e : error) (hy : Reader.yields r vs s s1)
    (hr : r s1 = ((w, e), s2)) (he : errors.Is e (some io.EOF) = true) :
    scanner.run (vs.length + 1) ⟨r, wrr0, none⟩ s
      = (vs.map (fun v => (true, v, none)) ++ [(false, Warning.nil, none)],
          (⟨r, Warning.nil, none⟩, s2)) := by
  induction vs generalizing s wrr0 with
  | nil =>
    simp only [Reader.yields] at hy
    subst hy
    simp [scanner.run, scanner.Scan, hr, he, scanner.Warning, scanner.Err]
  | cons v vs ih =>
    obtain ⟨h1, h2⟩ := hy
    have e2 : r s = ((v, none), (r s).2) := by rw [← h1]
    have hS : scanner.Scan ⟨r, wrr0, none⟩ s = (true, ⟨r, v, none⟩, (r s).2) := by
      simp only [scanner.Scan]
      rw [e2]
      simp [errors.Is_nil_EOF]
    have h := ih (r s).2 v h2
    have e3 : scanner.run (vs.length + 1 + 1) ⟨r, wrr0, none⟩ s
        = ((true, v, none) :: (scanner.run (vs.length + 1) ⟨r, v, none⟩ (r s).2).1,
            (scanner.run (vs.length + 1) ⟨r, v, none⟩ (r s).2).2) := by
      rw [scanner.run, hS]; rfl
    rw [List.length_cons, e3, h]; rfl

theorem Scan_run_failed {σ : Type} (r : Reader σ) (wrr0 : Warning) (e : GoError) (n : Nat)
    (s : σ) :
    scanner.run n ⟨r, wrr0, some e⟩ s
      = (List.replicate n (false, wrr0, some e), (⟨r, wrr0, some e⟩, s)) := by
  induction n with
  | zero => rfl
  | succ n ih =>
    have hS : scanner.Scan ⟨r, wrr0, some e⟩ s = (false, ⟨r, wrr0, some e⟩, s) := by
      simp [scanner.Scan]
    have e3 : scanner.run (n + 1) ⟨r, wrr0, some e⟩ s
        = ((false, wrr0, some e) :: (scanner.run n ⟨r, wrr0, some e⟩ s).1,
            (scanner.run n ⟨r, wrr0, some e⟩ s).2) := by
      rw [scanner.run, hS]; rfl
    rw [e3, ih]; rfl

theorem Reduce.flush_open {σ T : Type} (zero : T) (toWarning : T → Warning) (w : Writer σ)
    (fn : T → Warning → T) (ws : List Warning) (k : Nat) (t : σ) :
    Reduce.flush zero toWarning w fn (ws.length + 1 + k) (t, ⟨ws, false⟩)
      = some (match ws with
          | [] => t
          | _ :: _ => (w (toWarning (ws.foldl fn zero)) t).2, ⟨[], true⟩) := by
  have hA : ReadAll Collector.reader (ws.length + 1 + k) ⟨ws, false⟩
      = some ((ws, none), ⟨[], false⟩) := by
    simpa [ReadAll] using ReadAll.loop_collector_open ws k []
  simp only [Reduce.flush, hA]
  cases ws with
  | nil => simp [Collector.Close]
  | cons a l => simp [Collector.Close]

theorem Reduce.flush_closed {σ T : Type} (zero : T) (toWarning : T → Warning) (w : Writer σ)
    (fn : T → Warning → T) (fuel : Nat) (t : σ) (buf : List Warning) :
    Reduce.flush zero toWarning w fn (fuel + 1) (t, ⟨buf, true⟩) = some (t, ⟨buf, true⟩) := by
  have hA : ReadAll Collector.reader (fuel + 1) ⟨buf, true⟩
      = some (([], some ErrClosed), ⟨buf, true⟩) := by
    simp [ReadAll, ReadAll.loop, Collector.reader, Collector.ReadWarning,
      errors.Is_ErrClosed_EOF]
  simp only [Reduce.flush, hA]
  simp [Collector.Close]

theorem Reduce.flushTimes_closed {σ T : Type} (zero : T) (toWarning : T → Warning)
    (w : Writer σ) (fn : T → Warning → T) (fuel : Nat) (t : σ) (buf : List Warning)
    (n : Nat) :
    Reduce.flushTimes (Reduce.flush zero toWarning w fn) (fuel + 1) n (t, ⟨buf, true⟩)
      = some (t, ⟨buf, true⟩) := by
  induction n with
  | zero => rfl
  | succ n ih => simp [Reduce.flushTimes, Reduce.flush_closed, ih]

theorem Reduce_of_writer {σ T : Type} (zero : T) (toWarning : T → Warning)
    (ctx : Context σ) (w : Writer σ) (h : getWriter ctx = some w) (fn : T → Warning → T)
    (s : σ) :
    Reduce zero toWarning ctx fn s
      = ((resetWriter ctx.lift (some Reduce.input), Reduce.flush zero toWarning w fn),
          (s, NewCollector)) := by
  simp [Reduce, h]

theorem Warn.each_Reduce_input {σ : Type} (ctx : Context (σ × Collector))
    (bs : List (List Warning)) (s : σ) :
    Warn.each (resetWriter ctx (some Reduce.input)) bs (s, NewCollector)
      = (s, ⟨bs.flatten, false⟩) := by
  rw [Warn.each_eq_deliver _ _ (getWriter_resetWriter _ _)]
  simpa [NewCollector] using Writer.deliver_input bs.flatten s []

theorem Warnf.arg_eq_text (a : Any) : Warnf.arg a = Any.text a := by
  cases a with
  | warning wrr => cases wrr <;> rfl
  | string str => rfl
  | other id => rfl

theorem Warnf.args_eq_text (args : List Any) : args.map Warnf.arg = args.map Any.text := by
  induction args with
  | nil => rfl
  | cons a l ih => simp [Warnf.arg_eq_text, ih]

theorem Warn_fst {σ : Type} (ctx : Context σ) (w : Writer σ) (h : getWriter ctx = some w)
    (ws : List Warning) (s : σ) :
    (Warn ctx ws s).1 = errors.Join (Writer.returned w ws s) := by
  simp [Warn, h, Warn.range_returned, errors.Join_filter_isSome]

theorem Writer.returned_input_closed {σ : Type} (ws : List Warning) (t : σ)
    (buf : List Warning) :
    Writer.returned (Reduce.input : Writer (σ × Collector)) ws (t, ⟨buf, true⟩)
      = ws.map (fun _ => some ErrClosed) := by
  induction ws with
  | nil => rfl
  | cons w ws ih =>
    have e : Writer.returned (Reduce.input : Writer (σ × Collector)) (w :: ws)
          (t, ⟨buf, true⟩)
        = some ErrClosed
          :: Writer.returned (Reduce.input : Writer (σ × Collector)) ws (t, ⟨buf, true⟩) :=
      rfl
    rw [e, ih]; rfl

theorem Writer.deliver_input_closed {σ : Type} (ws : List Warning) (t : σ)
    (buf : List Warning) :
    Writer.deliver (Reduce.input : Writer (σ × Collector)) ws (t, ⟨buf, true⟩)
      = (t, ⟨buf, true⟩) := by
  induction ws with
  | nil => rfl
  | cons w ws ih =>
    have e : Writer.deliver (Reduce.input : Writer (σ × Collector)) (w :: ws)
          (t, ⟨buf, true⟩)
        = Writer.deliver (Reduce.input : Writer (σ × Collector)) ws (t, ⟨buf, true⟩) := rfl
    rw [e, ih]

theorem getWriter_Attach_Detach {σ : Type} (ctx : Context σ) (w2 : Writer σ) :
    getWriter (Attach (Detach ctx) w2) = some w2 := by
  have hD : getWriter (Detach ctx) = none := by
    cases hc : getWriter ctx with
    | none => simp [Detach, hc]
    | some w =>
      have hD1 : Detach ctx = setWriter ctx none := by simp only [Detach, hc]
      rw [hD1]; rfl
  have hA : Attach (Detach ctx) w2 = setWriter (Detach ctx) (some w2) := by
    simp only [Attach, hD]
  rw [hA]; rfl

theorem errors.Join_congr (a b : List error) (h : a.reduceOption = b.reduceOption) :
    errors.Join a = errors.Join b := by
  simp [errors.Join, h]

theorem Writer.returned_mapWriter {σ : Type} (w : Writer σ) (fn : Warning → Warning)
    (ws : List Warning) (s : σ) :
    Writer.returned (mapWriter.WriteWarning w fn) ws s = Writer.returned w (ws.map fn) s := by
  induction ws generalizing s with
  | nil => rfl
  | cons wrr rest ih =>
    have e : Writer.returned (mapWriter.WriteWarning w fn) (wrr :: rest) s
        = (w (fn wrr) s).1
          :: Writer.returned (mapWriter.WriteWarning w fn) rest (w (fn wrr) s).2 := rfl
    rw [e, ih]; rfl

theorem Writer.returned_filterWriter {σ : Type} (w : Writer σ) (fn : Warning → Bool)
    (ws : List Warning) (s : σ) :
    (Writer.returned (filterWriter.WriteWarning w fn) ws s).reduceOption
      = (Writer.returned w (ws.filter fn) s).reduceOption := by
  induction ws generalizing s with
  | nil => rfl
  | cons wrr rest ih =>
    cases hp : fn wrr with
    | false =>
      have e : Writer.returned (filterWriter.WriteWarning w fn) (wrr :: rest) s
          = none :: Writer.returned (filterWriter.WriteWarning w fn) rest s := by
        simp [Writer.returned, filterWriter.WriteWarning, hp]
      rw [e, List.reduceOption_cons_of_none, ih, List.filter_cons]
      simp [hp]
    | true =>
      have e : Writer.returned (filterWriter.WriteWarning w fn) (wrr :: rest) s
          = (w wrr s).1
            :: Writer.returned (filterWriter.WriteWarning w fn) rest (w wrr s).2 := by
        simp [Writer.returned, filterWriter.WriteWarning, hp]
      have e1 : Writer.returned w ((wrr :: rest).filter fn) s
          = (w wrr s).1 :: Writer.returned w (rest.filter fn) (w wrr s).2 := by
        rw [List.filter_cons]
        simp [hp, Writer.returned]
      rw [e, e1]
      cases hw : (w wrr s).1 with
      | none => simpa using ih (w wrr s).2
      | some err => simpa [List.reduceOption_cons_of_some] using ih (w wrr s).2

theorem Writer.returned_tapWriter_traced {σ : Type} (u : Writer σ) (g : Warning → σ → σ)
    (ws : List Warning) (s : σ) (log : List Event) :
    Writer.returned (tapWriter.WriteWarning (Writer.traced 0 u) (Event.tapped g)) ws (s, log)
      = Writer.returned (fun wrr t => u wrr (g wrr t)) ws s := by
  induction ws generalizing s log with
  | nil => rfl
  | cons wrr rest ih =>
    have e : Writer.returned (tapWriter.WriteWarning (Writer.traced 0 u) (Event.tapped g))
          (wrr :: rest) (s, log)
        = (u wrr (g wrr s)).1
          :: Writer.returned (tapWriter.WriteWarning (Writer.traced 0 u) (Event.tapped g))
              rest ((u wrr (g wrr s)).2,
                log ++ [Event.fn wrr] ++ [Event.WriteWarning 0 wrr]) := rfl
    rw [e, ih]; rfl

/-! ## The claims -/

/-- C1: for every list `ws` of warnings, writing the elements of `ws` in order with
`WriteWarning` to a freshly created Collector and then calling `ReadAll` on it returns
exactly `ws`, in the same order, with a nil error. Any fuel above `ws.length` is enough
for the loop of `ReadAll` to return, and the collector is left open and empty. -/
theorem C1_ReadAll_returns_written (ws : List Warning) (k : Nat) :
    ReadAll Collector.reader (ws.length + 1 + k) (Collector.writeAll NewCollector ws)
      = some ((ws, none), NewCollector) := by
  have h := ReadAll.loop_collector_open ws k []
  simpa [ReadAll, NewCollector, Collector.writeAll_open] using h

/-- C2: for every open Collector, whatever it has buffered, the first `Close` returns nil;
after it, in every sequence of further calls each `WriteWarning` returns `ErrClosed`, each
`ReadWarning` returns `(nil, ErrClosed)` and each `Close` returns `ErrClosed`, and the
collector stays closed with an empty buffer. -/
theorem C2_closed_is_absorbing (buf : List Warning) (ops : List Op) :
    (Collector.Close ⟨buf, false⟩).1 = none
      ∧ (Collector.run (Collector.Close ⟨buf, false⟩).2 ops).1 = ops.map Op.closedRet
      ∧ (Collector.run (Collector.Close ⟨buf, false⟩).2 ops).2 = ⟨[], true⟩ := by
  simp [Collector.Close, Collector.run_closed]

/-- C3: for every interleaving `ops` of `WriteWarning` and `ReadWarning` calls on a fresh
Collector that is never closed: the successful reads return a prefix of the written
warnings, so the k-th successful read returns the k-th warning written; the buffer holds
the written warnings not read yet; the next `ReadWarning` fails with `io.EOF` exactly when
every warning written so far has been read, and it then returns `(nil, io.EOF)` and leaves
the collector unchanged; `io.EOF` is not `ErrClosed`, in the sense of `==` and of
`errors.Is` alike. -/
theorem C3_collector_fifo (ops : List Op) (hops : Op.Close ∉ ops) :
    Ret.readOk (Collector.run NewCollector ops).1
        = (Op.written ops).take (Ret.readOk (Collector.run NewCollector ops).1).length
      ∧ (Collector.run NewCollector ops).2.buf
        = (Op.written ops).drop (Ret.readOk (Collector.run NewCollector ops).1).length
      ∧ (Collector.run NewCollector ops).2.closed = false
      ∧ (((Collector.run NewCollector ops).2.ReadWarning).1.2 = some io.EOF
          ↔ (Ret.readOk (Collector.run NewCollector ops).1).length = (Op.written ops).length)
      ∧ (((Collector.run NewCollector ops).2.ReadWarning).1.2 = some io.EOF →
          (Collector.run NewCollector ops).2.ReadWarning
            = ((Warning.nil, some io.EOF), (Collector.run NewCollector ops).2))
      ∧ io.EOF ≠ ErrClosed
      ∧ errors.Is (some io.EOF) (some ErrClosed) = false
      ∧ errors.Is (some ErrClosed) (some io.EOF) = false := by
  obtain ⟨h1, h2⟩ := Collector.run_open_invariant ops hops []
  simp only [List.nil_append] at h1
  rw [show NewCollector = (⟨[], false⟩ : Collector) from rfl]
  generalize Collector.run ⟨[], false⟩ ops = res at h1 h2
  obtain ⟨rets, c⟩ := res
  obtain ⟨cbuf, cclosed⟩ := c
  simp only at h1 h2
  subst h2
  refine ⟨?_, ?_, rfl, ?_, ?_, ?_, ?_, ?_⟩
  · simp [h1]
  · simp [h1]
  · cases cbuf with
    | nil => simp [Collector.ReadWarning, h1]
    | cons v rest => simp [Collector.ReadWarning, h1]
  · cases cbuf with
    | nil => simp [Collector.ReadWarning]
    | cons v rest => simp [Collector.ReadWarning]
  · intro h; simp [io.EOF, ErrClosed] at h
  · simp [errors.Is, errors.is, ErrClosed, io.EOF, GoError.beq, GoError.comparable]
  · exact errors.Is_ErrClosed_EOF

/-- Witness of C3: write `a`, read, read, write `b`, read on a fresh collector. -/
theorem C3_collector_fifo_witness :
    Op.Close ∉ [Op.WriteWarning (Warning.mk 1 "a"), Op.ReadWarning, Op.ReadWarning,
          Op.WriteWarning (Warning.mk 2 "b"), Op.ReadWarning]
    ∧ Ret.readOk (Collector.run NewCollector
        [Op.WriteWarning (Warning.mk 1 "a"), Op.ReadWarning, Op.ReadWarning,
          Op.WriteWarning (Warning.mk 2 "b"), Op.ReadWarning]).1
      = [Warning.mk 1 "a", Warning.mk 2 "b"]
    ∧ ((Collector.run NewCollector
        [Op.WriteWarning (Warning.mk 1 "a"), Op.ReadWarning, Op.ReadWarning,
          Op.WriteWarning (Warning.mk 2 "b"), Op.ReadWarning]).2.ReadWarning).1.2
      = some io.EOF := by
  have h := C3_collector_fifo
    [Op.WriteWarning (Warning.mk 1 "a"), Op.ReadWarning, Op.ReadWarning,
      Op.WriteWarning (Warning.mk 2 "b"), Op.ReadWarning] (by decide)
  refine ⟨by decide, rfl, ?_⟩
  exact h.2.2.2.1.2 rfl

/-- C4 (amended): `ReadAll` is all-or-nothing, where "is `io.EOF`" is what the code tests,
`errors.Is(err, io.EOF)`. If the reader yields the warnings `vs` and then an error `e` with
`errors.Is(e, io.EOF)` (`io.EOF` itself, or an error wrapping it), `ReadAll` returns `vs`
with a nil error; if it yields `vs` and then a non-nil `e` for which `errors.Is(e, io.EOF)`
is false, `ReadAll` returns the nil slice together with exactly `e`. Whenever `ReadAll`
returns, the result is empty or the error is nil. -/
theorem C4_ReadAll_all_or_nothing {σ : Type} (r : Reader σ) :
    (∀ (vs : List Warning) (s s1 s2 : σ) (w : Warning) (e : GoError) (k : Nat),
        Reader.yields r vs s s1 → r s1 = ((w, some e), s2) →
        errors.Is (some e) (some io.EOF) = true →
        ReadAll r (vs.length + 1 + k) s = some ((vs, none), s2))
      ∧ (∀ (vs : List Warning) (s s1 s2 : σ) (w : Warning) (e : GoError) (k : Nat),
        Reader.yields r vs s s1 → r s1 = ((w, some e), s2) →
        errors.Is (some e) (some io.EOF) = false →
        ReadAll r (vs.length + 1 + k) s = some (([], some e), s2))
      ∧ (∀ (fuel : Nat) (s s1 : σ) (res : List Warning) (err : error),
        ReadAll r fuel s = some ((res, err), s1) → res = [] ∨ err = none) := by
  refine ⟨?_, ?_, ?_⟩
  · intro vs s s1 s2 w e k hy hr he
    simpa [ReadAll] using ReadAll.loop_eof r vs s s1 s2 w (some e) k [] hy hr he
  · intro vs s s1 s2 w e k hy hr he
    simpa [ReadAll] using ReadAll.loop_failure r vs s s1 s2 w e k [] hy hr he
  · intro fuel s s1 res err h
    exact ReadAll.loop_result r fuel s s1 [] res err h

/-- Witness of C4: the readers of `TestReadAll` and `TestReadAll_UnexpectedError`. -/
theorem C4_ReadAll_all_or_nothing_witness :
    ReadAll mockReader 3
        [(Warning.mk 1 "test-1", none), (Warning.mk 2 "test-2", none),
          (Warning.nil, some io.EOF)]
      = some (([Warning.mk 1 "test-1", Warning.mk 2 "test-2"], none), [])
    ∧ ReadAll mockReader 3
        [(Warning.mk 1 "test-1", none), (Warning.mk 2 "test-2", none),
          (Warning.nil, some (GoError.errorString 5))]
      = some (([], some (GoError.errorString 5)), []) :=
  ⟨(C4_ReadAll_all_or_nothing mockReader).1
      [Warning.mk 1 "test-1", Warning.mk 2 "test-2"] _ [(Warning.nil, some io.EOF)] []
      Warning.nil io.EOF 0 ⟨rfl, rfl, rfl⟩ rfl errors.Is_EOF_EOF,
    (C4_ReadAll_all_or_nothing mockReader).2.1
      [Warning.mk 1 "test-1", Warning.mk 2 "test-2"] _
      [(Warning.nil, some (GoError.errorString 5))] []
      Warning.nil (GoError.errorString 5) 0 ⟨rfl, rfl, rfl⟩ rfl
      (by simp [errors.Is, errors.is, io.EOF, GoError.beq, GoError.comparable])⟩

/-- Counterexample to C4 as stated: a reader yields one warning and then the failure
`fmt.Errorf("%w", io.EOF)`, which is not the value `io.EOF`; `ReadAll` returns the warning
read so far with a nil error, not a nil result with that failure. -/
theorem C4_wrapped_EOF_counterexample :
    GoError.wrapError 7 io.EOF ≠ io.EOF
    ∧ ReadAll mockReader 2
        [(Warning.mk 1 "test-1", none), (Warning.nil, some (GoError.wrapError 7 io.EOF))]
      = some (([Warning.mk 1 "test-1"], none), [])
    ∧ ReadAll mockReader 2
        [(Warning.mk 1 "test-1", none), (Warning.nil, some (GoError.wrapError 7 io.EOF))]
      ≠ some (([], some (GoError.wrapError 7 io.EOF)), []) := by
  have h : ReadAll mockReader 2
        [(Warning.mk 1 "test-1", none), (Warning.nil, some (GoError.wrapError 7 io.EOF))]
      = some (([Warning.mk 1 "test-1"], none), []) := by
    simp [ReadAll, ReadAll.loop, mockReader, errors.Is, errors.is, io.EOF, GoError.beq,
      GoError.comparable]
  refine ⟨?_, h, ?_⟩
  · intro h0; simp [io.EOF] at h0
  · rw [h]; simp

/-- C5: for every list `ds` of delegate writers and every warning `w`, one `WriteWarning(w)`
on `NewMultiWriter(ds...)` invokes `WriteWarning(w)` on every delegate exactly once, in the
order the delegates were supplied and with the same `w`, whatever the delegates return:
with the delegates numbered and traced, the trace grows by the calls `(0, w)`, `(1, w)`, ...,
`(n-1, w)`, and the store is the one left by calling each delegate in turn. -/
theorem C5_multiWriter_invokes_each_delegate_once {σ : Type} (ds : List (Writer σ))
    (w : Warning) (s : σ) (log : List Event) :
    (NewMultiWriter (Writer.tracedFrom 0 ds) w (s, log)).2
      = ((Writer.each w ds s).2,
          log ++ (List.range ds.length).map (fun i => Event.WriteWarning i w)) := by
  simp only [NewMultiWriter, multiWriter.WriteWarning, multiWriter.range_eq,
    Writer.each_tracedFrom, List.range_eq_range']

/-- C6 (amended): for every list `ds` of delegate writers and every warning `w`, the
result of the MultiWriter's `WriteWarning` is nil if and only if no delegate returned a
failure; otherwise it is the non-nil `errors.Join` of the failures returned, and
`errors.Is` holds between it and each returned failure that is comparable (equal to itself
under `==`, as every error built by `errors.New`, `fmt.Errorf` and `errors.Join` is). The
errors the delegates return are those of `Writer.each`, the run that calls each delegate
once in order, which is the run the MultiWriter performs. -/
theorem C6_multiWriter_aggregates_failures {σ : Type} (ds : List (Writer σ)) (w : Warning)
    (s : σ) :
    ((NewMultiWriter ds w s).1 = none ↔ ∀ e ∈ (Writer.each w ds s).1, e = none)
      ∧ (NewMultiWriter ds w s).1 = errors.Join (Writer.each w ds s).1
      ∧ (∀ e : GoError, some e ∈ (Writer.each w ds s).1 → (NewMultiWriter ds w s).1 ≠ none)
      ∧ (∀ e : GoError, some e ∈ (Writer.each w ds s).1 → e.comparable = true →
          errors.Is (NewMultiWriter ds w s).1 (some e) = true)
      ∧ (NewMultiWriter ds w s).2 = (Writer.each w ds s).2 := by
  have hj : (NewMultiWriter ds w s).1 = errors.Join (Writer.each w ds s).1 := by
    simp [NewMultiWriter, multiWriter.WriteWarning, multiWriter.range_eq,
      errors.Join_filter_isSome]
  refine ⟨?_, hj, ?_, ?_, ?_⟩
  · rw [hj]; exact errors.Join_eq_none_iff _
  · intro e he hn
    rw [hj] at hn
    have := (errors.Join_eq_none_iff _).1 hn _ he
    simp at this
  · intro e he hc
    rw [hj]
    exact errors.Is_Join_of_mem _ e hc he
  · simp [NewMultiWriter, multiWriter.WriteWarning, multiWriter.range_eq]

/-- Witness of C6: the three writers of `TestNewMultiWriterErrors`; the second and the third
fail, and the aggregate contains the failure of the third. -/
theorem C6_multiWriter_aggregates_failures_witness :
    some (GoError.errorString 12)
        ∈ (Writer.each (Warning.mk 1 "test")
            [mockWriter none, mockWriter (some (GoError.errorString 11)),
              mockWriter (some (GoError.errorString 12))] []).1
    ∧ (GoError.errorString 12).comparable = true
    ∧ (NewMultiWriter
          [mockWriter none, mockWriter (some (GoError.errorString 11)),
            mockWriter (some (GoError.errorString 12))] (Warning.mk 1 "test") []).1 ≠ none
    ∧ errors.Is (NewMultiWriter
          [mockWriter none, mockWriter (some (GoError.errorString 11)),
            mockWriter (some (GoError.errorString 12))] (Warning.mk 1 "test") []).1
        (some (GoError.errorString 12)) = true :=
  ⟨by simp [Writer.each, mockWriter], rfl,
    (C6_multiWriter_aggregates_failures
      [mockWriter none, mockWriter (some (GoError.errorString 11)),
        mockWriter (some (GoError.errorString 12))] (Warning.mk 1 "test") []).2.2.1
      (GoError.errorString 12) (by simp [Writer.each, mockWriter]),
    (C6_multiWriter_aggregates_failures
      [mockWriter none, mockWriter (some (GoError.errorString 11)),
        mockWriter (some (GoError.errorString 12))] (Warning.mk 1 "test") []).2.2.2.1
      (GoError.errorString 12) (by simp [Writer.each, mockWriter]) rfl⟩

/-- Counterexample to C6 as stated: the only delegate returns a failure of a type that is
not comparable (a slice type with an `Error` method and no `Is` method); the result of the
MultiWriter is non-nil, yet `errors.Is` between it and that failure is false. -/
theorem C6_not_comparable_counterexample :
    some (GoError.custom 9 false [])
        ∈ (Writer.each (Warning.mk 1 "test")
            [mockWriter (some (GoError.custom 9 false []))] []).1
    ∧ (NewMultiWriter [mockWriter (some (GoError.custom 9 false []))]
          (Warning.mk 1 "test") []).1 ≠ none
    ∧ errors.Is (NewMultiWriter [mockWriter (some (GoError.custom 9 false []))]
          (Warning.mk 1 "test") []).1 (some (GoError.custom 9 false [])) = false := by
  refine ⟨?_, ?_, ?_⟩
  · simp [Writer.each, mockWriter]
  · simp [NewMultiWriter, multiWriter.WriteWarning, multiWriter.range, mockWriter,
      errors.Join, List.reduceOption_cons_of_some]
  · simp [NewMultiWriter, multiWriter.WriteWarning, multiWriter.range, mockWriter,
      errors.Join, List.reduceOption_cons_of_some, errors.Is, errors.is, errors.isAny,
      GoError.comparable, GoError.elem]

/-- C7: for every context whose active writer is `u` (traced as writer 0), every function `f`
and every list of warnings written via `Warn` through `Map(ctx, f)`, in one call or
split into the successive calls `bs`, `u` receives exactly `f(w)` for each written `w`, in
order: one call per written warning, with `f(w)` and not `w`. -/
theorem C7_Map_delivers_mapped {σ : Type} (u : Writer σ) (ctx : Context (Traced σ))
    (h : getWriter ctx = some (Writer.traced 0 u)) (f : Warning → Warning)
    (bs : List (List Warning)) (s : σ) (log : List Event) :
    Warn.each (Map ctx f) bs (s, log)
      = (Writer.deliver u (bs.flatten.map f) s,
          log ++ bs.flatten.map (fun w => Event.WriteWarning 0 (f w))) := by
  have hg : getWriter (Map ctx f)
      = some (mapWriter.WriteWarning (Writer.traced 0 u) f) := by
    simp [Map, h, getWriter_resetWriter]
  rw [Warn.each_eq_deliver _ _ hg, Writer.deliver_mapWriter, Writer.deliver_traced,
    List.map_map]
  rfl

/-- Witness of C7: the writer of `TestMap`, a `mockWriter` that accepts every warning. -/
theorem C7_Map_delivers_mapped_witness :
    getWriter (Attach Context.Background (Writer.traced 0 (mockWriter none)))
        = some (Writer.traced 0 (mockWriter none))
    ∧ Warn.each (Map (Attach Context.Background (Writer.traced 0 (mockWriter none)))
          (fun _ => Warning.mk 2 "TEST")) [[Warning.mk 1 "test"]] ([], [])
        = ([Warning.mk 2 "TEST"], [Event.WriteWarning 0 (Warning.mk 2 "TEST")]) :=
  ⟨rfl, C7_Map_delivers_mapped (mockWriter none)
    (Attach Context.Background (Writer.traced 0 (mockWriter none))) rfl _ _ _ _⟩

/-- C8: for every context whose active writer is `u` (traced as writer 0), every predicate
`p` and every list of warnings written via `Warn` through `Filter(ctx, p)`, in one call or
split into the successive calls `bs`, `u` receives exactly the written warnings that
satisfy `p`, in their original order; a write of a warning that fails `p` returns nil and
changes nothing. -/
theorem C8_Filter_delivers_satisfying {σ : Type} (u : Writer σ) (ctx : Context (Traced σ))
    (h : getWriter ctx = some (Writer.traced 0 u)) (p : Warning → Bool)
    (bs : List (List Warning)) (s : σ) (log : List Event) :
    Warn.each (Filter ctx p) bs (s, log)
        = (Writer.deliver u (bs.flatten.filter p) s,
            log ++ (bs.flatten.filter p).map (fun w => Event.WriteWarning 0 w))
      ∧ (∀ w : Warning, p w = false →
          Warn (Filter ctx p) [w] (s, log) = (none, (s, log))) := by
  have hg : getWriter (Filter ctx p)
      = some (filterWriter.WriteWarning (Writer.traced 0 u) p) := by
    simp [Filter, h, getWriter_resetWriter]
  refine ⟨?_, ?_⟩
  · rw [Warn.each_eq_deliver _ _ hg, Writer.deliver_filterWriter, Writer.deliver_traced]
  · intro w hw
    simp [Warn, hg, Warn.range, filterWriter.WriteWarning, hw, errors.Join]

/-- Witness of C8: the writer and the warnings of `TestFilter`. -/
theorem C8_Filter_delivers_satisfying_witness :
    getWriter (Attach Context.Background (Writer.traced 0 (mockWriter none)))
        = some (Writer.traced 0 (mockWriter none))
    ∧ Warn.each (Filter (Attach Context.Background (Writer.traced 0 (mockWriter none)))
          (fun w => decide (w ≠ Warning.mk 2 "ignore")))
          [[Warning.mk 1 "this"], [Warning.mk 2 "ignore"], [Warning.mk 3 "that"]] ([], [])
        = ([Warning.mk 1 "this", Warning.mk 3 "that"],
            [Event.WriteWarning 0 (Warning.mk 1 "this"),
              Event.WriteWarning 0 (Warning.mk 3 "that")]) :=
  ⟨rfl, (C8_Filter_delivers_satisfying (mockWriter none)
    (Attach Context.Background (Writer.traced 0 (mockWriter none))) rfl _ _ _ _).1⟩

/-- C9: for every context whose active writer is `u` (traced as writer 0), every fold
function `fn` and every list of warnings written via `Warn` through the context returned by
`Reduce`, in one call or split into the successive calls `bs`: before `flush`, `u` has
received nothing and the written warnings sit in the private collector; the first `flush`
(any fuel above their number lets its `ReadAll` return) makes `u` receive nothing if no
warning was written, and otherwise exactly one warning, the left fold of `fn` over the
written warnings from the zero value of the accumulator type; it leaves the private
collector closed. -/
theorem C9_Reduce_flush_writes_fold {σ T : Type} (zero : T) (toWarning : T → Warning)
    (u : Writer σ) (ctx : Context (Traced σ))
    (h : getWriter ctx = some (Writer.traced 0 u)) (fn : T → Warning → T)
    (bs : List (List Warning)) (s : σ) (log : List Event) (k : Nat) :
    Warn.each (Reduce zero toWarning ctx fn (s, log)).1.1 bs
        (Reduce zero toWarning ctx fn (s, log)).2 = ((s, log), ⟨bs.flatten, false⟩)
      ∧ (bs.flatten = [] →
          (Reduce zero toWarning ctx fn (s, log)).1.2 (bs.flatten.length + 1 + k)
              (Warn.each (Reduce zero toWarning ctx fn (s, log)).1.1 bs
                (Reduce zero toWarning ctx fn (s, log)).2)
            = some ((s, log), ⟨[], true⟩))
      ∧ (bs.flatten ≠ [] →
          (Reduce zero toWarning ctx fn (s, log)).1.2 (bs.flatten.length + 1 + k)
              (Warn.each (Reduce zero toWarning ctx fn (s, log)).1.1 bs
                (Reduce zero toWarning ctx fn (s, log)).2)
            = some (((u (toWarning (bs.flatten.foldl fn zero)) s).2,
                log ++ [Event.WriteWarning 0 (toWarning (bs.flatten.foldl fn zero))]),
                ⟨[], true⟩)) := by
  have hR : Reduce zero toWarning ctx fn (s, log)
      = ((resetWriter ctx.lift (some Reduce.input),
          Reduce.flush zero toWarning (Writer.traced 0 u) fn), ((s, log), NewCollector)) := by
    simp [Reduce, h]
  have hW : Warn.each (resetWriter ctx.lift (some Reduce.input)) bs ((s, log), NewCollector)
      = ((s, log), ⟨bs.flatten, false⟩) := by
    rw [Warn.each_eq_deliver _ _ (getWriter_resetWriter _ _)]
    simpa [NewCollector] using Writer.deliver_input bs.flatten (s, log) []
  rw [hR]
  simp only
  rw [hW]
  generalize bs.flatten = ws
  have hA : ReadAll Collector.reader (ws.length + 1 + k) ⟨ws, false⟩
      = some ((ws, none), ⟨[], false⟩) := by
    simpa [ReadAll] using ReadAll.loop_collector_open ws k []
  refine ⟨rfl, ?_, ?_⟩
  · intro hws
    subst hws
    simp only [Reduce.flush, hA]
    simp [Collector.Close]
  · intro hws
    simp only [Reduce.flush, hA]
    simp [Collector.Close, hws, Writer.traced]

/-- Witness of C9: the writer and the warnings of `TestReduce`, written by two calls of
`Warn`, with an accumulator that counts them. -/
theorem C9_Reduce_flush_writes_fold_witness :
    getWriter (Attach Context.Background (Writer.traced 0 (mockWriter none)))
        = some (Writer.traced 0 (mockWriter none))
    ∧ [[Warning.mk 1 "this"], [Warning.mk 2 "that"]].flatten ≠ []
    ∧ (Reduce (0 : Nat) (fun acc => Warning.mk acc "reduced")
          (Attach Context.Background (Writer.traced 0 (mockWriter none)))
          (fun acc _ => acc + 1) ([], [])).1.2 3
        (Warn.each (Reduce (0 : Nat) (fun acc => Warning.mk acc "reduced")
            (Attach Context.Background (Writer.traced 0 (mockWriter none)))
            (fun acc _ => acc + 1) ([], [])).1.1
          [[Warning.mk 1 "this"], [Warning.mk 2 "that"]]
          (Reduce (0 : Nat) (fun acc => Warning.mk acc "reduced")
            (Attach Context.Background (Writer.traced 0 (mockWriter none)))
            (fun acc _ => acc + 1) ([], [])).2)
      = some (([Warning.mk 2 "reduced"], [Event.WriteWarning 0 (Warning.mk 2 "reduced")]),
          ⟨[], true⟩) :=
  ⟨rfl, by simp,
    (C9_Reduce_flush_writes_fold (0 : Nat) (fun acc => Warning.mk acc "reduced")
      (mockWriter none) (Attach Context.Background (Writer.traced 0 (mockWriter none))) rfl
      (fun acc _ => acc + 1) [[Warning.mk 1 "this"], [Warning.mk 2 "that"]] [] [] 0).2.2
      (by simp)⟩

/-- C10: for every context whose active writer is `u` (traced as writer 0), every
side-effect function `g` (traced) and every list of warnings written via `Warn` through
`Tap(ctx, g)`, in one call or split into the successive calls `bs`: the trace grows by
`fn(w), WriteWarning(w)` for each written `w` in order, so `u` receives exactly the written
warnings, unmodified and in order, `g` is invoked exactly once for each warning and with
that warning, and each call of `g` comes before the forwarded write. -/
theorem C10_Tap_calls_fn_then_forwards {σ : Type} (u : Writer σ) (ctx : Context (Traced σ))
    (h : getWriter ctx = some (Writer.traced 0 u)) (g : Warning → σ → σ)
    (bs : List (List Warning)) (s : σ) (log : List Event) :
    Warn.each (Tap ctx (Event.tapped g)) bs (s, log)
        = (bs.flatten.foldl (fun s wrr => (u wrr (g wrr s)).2) s,
            log ++ Event.tapTrace bs.flatten)
      ∧ (Event.tapTrace bs.flatten).filter (fun e => e matches Event.WriteWarning _ _)
        = bs.flatten.map (Event.WriteWarning 0)
      ∧ (Event.tapTrace bs.flatten).filter (fun e => e matches Event.fn _)
        = bs.flatten.map Event.fn := by
  have hg : getWriter (Tap ctx (Event.tapped g))
      = some (tapWriter.WriteWarning (Writer.traced 0 u) (Event.tapped g)) := by
    simp [Tap, h, getWriter_resetWriter]
  refine ⟨?_, ?_, ?_⟩
  · rw [Warn.each_eq_deliver _ _ hg, Writer.deliver_tapWriter_traced]
  · generalize bs.flatten = ws
    induction ws with
    | nil => rfl
    | cons w ws ih => simp [Event.tapTrace, List.filter_cons, ih]
  · generalize bs.flatten = ws
    induction ws with
    | nil => rfl
    | cons w ws ih => simp [Event.tapTrace, List.filter_cons, ih]

/-- Witness of C10: the writer of `TestTap`, with a callback that counts its calls in the
store next to the buffer of the writer. -/
theorem C10_Tap_calls_fn_then_forwards_witness :
    getWriter (Attach Context.Background
        (Writer.traced 0 (Writer.lift (mockWriter none) : Writer (List Warning × Nat))))
      = some (Writer.traced 0 (Writer.lift (mockWriter none)))
    ∧ Warn.each (Tap (Attach Context.Background
          (Writer.traced 0 (Writer.lift (mockWriter none) : Writer (List Warning × Nat))))
          (Event.tapped (fun _ st => (st.1, st.2 + 1))))
        [[Warning.mk 1 "test"]] (([], 0), [])
      = (([Warning.mk 1 "test"], 1),
          [Event.fn (Warning.mk 1 "test"), Event.WriteWarning 0 (Warning.mk 1 "test")]) :=
  ⟨rfl, (C10_Tap_calls_fn_then_forwards (Writer.lift (mockWriter none))
    (Attach Context.Background (Writer.traced 0 (Writer.lift (mockWriter none)))) rfl
    _ _ _ _).1⟩

/-- C11: for every context with no active writer, `Map`, `Filter` and `Tap` return the
context itself and `Reduce` returns it unchanged (seen from the grown store), still with no
active writer; a `Warn` through any of the returned contexts returns nil and leaves the whole
store as it was, so no writer is written to and the function passed to `Tap` is never
invoked (for any function, also one that records its calls in the store); the `flush`
returned by `Reduce` leaves every store as it is. -/
theorem C11_no_writer_combinators_are_noops {σ T : Type} (ctx : Context σ)
    (h : getWriter ctx = none) (f : Warning → Warning) (p : Warning → Bool)
    (g : Warning → σ → σ) (zero : T) (toWarning : T → Warning) (fn : T → Warning → T)
    (ws : List Warning) (s : σ) (fuel : Nat) (st : σ × Collector) :
    (Map ctx f = ctx ∧ Filter ctx p = ctx ∧ Tap ctx g = ctx
        ∧ (Reduce zero toWarning ctx fn s).1.1 = ctx.lift)
      ∧ (getWriter (Map ctx f) = none ∧ getWriter (Filter ctx p) = none
        ∧ getWriter (Tap ctx g) = none
        ∧ getWriter (Reduce zero toWarning ctx fn s).1.1 = none)
      ∧ (Warn (Map ctx f) ws s = (none, s) ∧ Warn (Filter ctx p) ws s = (none, s)
        ∧ Warn (Tap ctx g) ws s = (none, s)
        ∧ Warn (Reduce zero toWarning ctx fn s).1.1 ws st = (none, st))
      ∧ (Reduce zero toWarning ctx fn s).2.1 = s
      ∧ (Reduce zero toWarning ctx fn s).1.2 fuel st = some st := by
  have hM : Map ctx f = ctx := by simp [Map, h]
  have hF : Filter ctx p = ctx := by simp [Filter, h]
  have hT : Tap ctx g = ctx := by simp [Tap, h]
  have hR : Reduce zero toWarning ctx fn s
      = ((ctx.lift, fun _ st => some st), (s, NewCollector)) := by
    simp [Reduce, h]
  have hL : getWriter (ctx.lift : Context (σ × Collector)) = none := by
    rw [getWriter_lift, h]; rfl
  rw [hM, hF, hT, hR]
  exact ⟨⟨rfl, rfl, rfl, rfl⟩, ⟨h, h, h, hL⟩,
    ⟨Warn_of_no_writer ctx h ws s, Warn_of_no_writer ctx h ws s, Warn_of_no_writer ctx h ws s,
      Warn_of_no_writer _ hL ws st⟩, rfl, rfl⟩

/-- Witness of C11: the background context of `TestTapNoWriter`, with a callback that
records its calls; the trace stays empty. -/
theorem C11_no_writer_combinators_are_noops_witness :
    getWriter (Context.Background : Context (Traced Nat)) = none
    ∧ Warn (Tap (Context.Background : Context (Traced Nat))
          (Event.tapped (fun _ n => n + 1))) [Warning.mk 1 "test"] (0, [])
        = (none, (0, [])) :=
  ⟨rfl, (C11_no_writer_combinators_are_noops (T := Nat)
    (Context.Background : Context (Traced Nat)) rfl id (fun _ => true)
    (Event.tapped (fun _ n => n + 1)) 0 (fun _ => Warning.nil) (fun a _ => a)
    [Warning.mk 1 "test"] (0, []) 0 ((0, []), NewCollector)).2.2.1.2.2.1⟩

/-- C12: for every context and writer `w2`: if the context has no active writer,
`Attach(ctx, w2)` binds `w2` itself; if it has the active writer `u1` (traced as writer 0),
then after the warnings `pre` were written through `ctx`, every warning written via `Warn`
through `Attach(ctx, u2)` (`u2` traced as writer 1) is delivered to both, first to `u1` and
then to `u2`; `u2` receives exactly the warnings written after it was attached and `u1` all
of them. -/
theorem C12_Attach_combines_existing_first {σ : Type} (u1 u2 : Writer σ) :
    (∀ (ctx : Context σ) (w2 : Writer σ), getWriter ctx = none →
        Attach ctx w2 = setWriter ctx (some w2) ∧ getWriter (Attach ctx w2) = some w2)
      ∧ (∀ (ctx : Context (Traced σ)) (pre bs : List (List Warning)) (s : σ)
          (log : List Event),
        getWriter ctx = some (Writer.traced 0 u1) →
          Warn.each (Attach ctx (Writer.traced 1 u2)) bs (Warn.each ctx pre (s, log))
              = (bs.flatten.foldl (fun s wrr => (u2 wrr (u1 wrr s).2).2)
                    (Writer.deliver u1 pre.flatten s),
                  log ++ pre.flatten.map (Event.WriteWarning 0) ++ Event.fanTrace bs.flatten)
            ∧ Event.ofWriter 1
                (pre.flatten.map (Event.WriteWarning 0) ++ Event.fanTrace bs.flatten)
              = bs.flatten.map (Event.WriteWarning 1)
            ∧ Event.ofWriter 0
                (pre.flatten.map (Event.WriteWarning 0) ++ Event.fanTrace bs.flatten)
              = (pre.flatten ++ bs.flatten).map (Event.WriteWarning 0)) := by
  refine ⟨?_, ?_⟩
  · intro ctx w2 h
    have hA : Attach ctx w2 = setWriter ctx (some w2) := by simp [Attach, h]
    exact ⟨hA, by rw [hA]; rfl⟩
  · intro ctx pre bs s log h
    have hA : getWriter (Attach ctx (Writer.traced 1 u2))
        = some (NewMultiWriter [Writer.traced 0 u1, Writer.traced 1 u2]) := by
      have hA1 : Attach ctx (Writer.traced 1 u2)
          = setWriter ctx (some (NewMultiWriter [Writer.traced 0 u1, Writer.traced 1 u2])) := by
        simp only [Attach, h]
      rw [hA1]; rfl
    refine ⟨?_, ?_, ?_⟩
    · rw [Warn.each_eq_deliver _ _ h, Writer.deliver_traced, Warn.each_eq_deliver _ _ hA,
        Writer.deliver_fan]
    · rw [Event.ofWriter_append, Event.ofWriter_map_other 1 0 (by decide),
        (Event.ofWriter_fanTrace _).2]
      rfl
    · rw [Event.ofWriter_append, Event.ofWriter_map_same, (Event.ofWriter_fanTrace _).1,
        List.map_append]

/-- Witness of C12: the two writers and the two warnings of `TestAttach`; both writers share
one buffer here, which shows the order of the two deliveries. -/
theorem C12_Attach_combines_existing_first_witness :
    getWriter (Attach Context.Background (Writer.traced 0 (mockWriter none)))
        = some (Writer.traced 0 (mockWriter none))
    ∧ Warn.each (Attach (Attach Context.Background (Writer.traced 0 (mockWriter none)))
          (Writer.traced 1 (mockWriter none))) [[Warning.mk 2 "test-2"]]
        (Warn.each (Attach Context.Background (Writer.traced 0 (mockWriter none)))
          [[Warning.mk 1 "test-1"]] ([], []))
      = ([Warning.mk 1 "test-1", Warning.mk 2 "test-2", Warning.mk 2 "test-2"],
          [Event.WriteWarning 0 (Warning.mk 1 "test-1"),
            Event.WriteWarning 0 (Warning.mk 2 "test-2"),
            Event.WriteWarning 1 (Warning.mk 2 "test-2")]) :=
  ⟨rfl, ((C12_Attach_combines_existing_first (mockWriter none) (mockWriter none)).2
    (Attach Context.Background (Writer.traced 0 (mockWriter none)))
    [[Warning.mk 1 "test-1"]] [[Warning.mk 2 "test-2"]] [] [] rfl).1⟩

/-- C13: for every context, whatever it has bound, `Detach(ctx)` has no active writer: a
`Warn` through it returns nil and leaves the whole store as it was, so nothing is delivered
to any writer. The original context is not changed: `Detach` returns it as it is when it has
no writer and a child of it otherwise, and a writer `u` bound by the original (traced as
writer 0) still receives what is written through the original afterwards. -/
theorem C13_Detach_unbinds {σ : Type} (ctx : Context σ) (ws : List Warning) (s : σ) :
    getWriter (Detach ctx) = none
      ∧ Warn (Detach ctx) ws s = (none, s)
      ∧ (getWriter ctx = none → Detach ctx = ctx)
      ∧ (∀ w : Writer σ, getWriter ctx = some w → Detach ctx = Context.WithValue ctx none)
      ∧ (∀ (τ : Type) (u : Writer τ) (c : Context (Traced τ)) (bs : List (List Warning))
          (t : τ) (log : List Event),
          getWriter c = some (Writer.traced 0 u) →
            Warn.each c bs (Warn (Detach c) ws (t, log)).2
              = (Writer.deliver u bs.flatten t,
                  log ++ bs.flatten.map (Event.WriteWarning 0))) := by
  have hD : ∀ (ρ : Type) (c : Context ρ), getWriter (Detach c) = none := by
    intro ρ c
    cases hc : getWriter c with
    | none => simp [Detach, hc]
    | some w =>
      have hD1 : Detach c = setWriter c none := by simp only [Detach, hc]
      rw [hD1]; rfl
  refine ⟨hD _ ctx, Warn_of_no_writer _ (hD _ ctx) ws s, ?_, ?_, ?_⟩
  · intro h; simp [Detach, h]
  · intro w h; simp [Detach, h, setWriter]
  · intro τ u c bs t log h
    rw [Warn_of_no_writer _ (hD _ c) ws (t, log), Warn.each_eq_deliver _ _ h,
      Writer.deliver_traced]

/-- Witness of C13: the writer and the warning of `TestDetach`; the buffer and the trace of
the writer stay empty. -/
theorem C13_Detach_unbinds_witness :
    Warn (Detach (Attach Context.Background (Writer.traced 0 (mockWriter none))))
        [Warning.mk 1 "test-warning"] ([], [])
      = (none, ([], [])) :=
  (C13_Detach_unbinds (Attach Context.Background (Writer.traced 0 (mockWriter none)))
    [Warning.mk 1 "test-warning"] ([], [])).2.1

/-- C14: for every context with no attached writer, every list of warnings and every format
and argument list, `Warn` and `Warnf` return nil and leave the whole store as it was, so no
writer is written to. -/
theorem C14_Warn_without_writer {σ : Type} (ctx : Context σ) (h : getWriter ctx = none)
    (ws : List Warning) (Sprintf : String → List Any → String) (ref : Nat) (format : String)
    (args : List Any) (s : σ) :
    Warn ctx ws s = (none, s) ∧ Warnf Sprintf ref ctx format args s = (none, s) :=
  ⟨Warn_of_no_writer ctx h ws s, Warn_of_no_writer ctx h _ s⟩

/-- Witness of C14: the background context of `TestWarnNoWriter`. -/
theorem C14_Warn_without_writer_witness :
    getWriter (Context.Background : Context (List Warning)) = none
    ∧ Warn (Context.Background : Context (List Warning)) [Warning.mk 1 "test-warning"] []
        = (none, [])
    ∧ Warnf (fun format _ => format) 2 (Context.Background : Context (List Warning))
        "test-warning: %s" [Any.warning (Warning.mk 1 "sub-warning")] [] = (none, []) :=
  ⟨rfl, C14_Warn_without_writer Context.Background rfl _ _ _ _ _ _⟩

/-- C15 (amended): for every context whose active writer is `u` (traced as writer 0) and
every list `ws` of warnings, `Warn` invokes `u` once for each warning, in the given order,
also after a write has failed, and the store is the one all these calls leave (nothing is
rolled back); `Warn` returns nil if and only if no call returned a failure, and otherwise
the non-nil `errors.Join` of the failures returned, and `errors.Is` holds between it and
each returned failure that is comparable (equal to itself under `==`, as every error built
by `errors.New`, `fmt.Errorf` and `errors.Join` is). -/
theorem C15_Warn_writes_all_and_aggregates {σ : Type} (u : Writer σ)
    (ctx : Context (Traced σ)) (h : getWriter ctx = some (Writer.traced 0 u))
    (ws : List Warning) (s : σ) (log : List Event) :
    (Warn ctx ws (s, log)).2 = (Writer.deliver u ws s, log ++ ws.map (Event.WriteWarning 0))
      ∧ ((Warn ctx ws (s, log)).1 = none ↔ ∀ e ∈ Writer.returned u ws s, e = none)
      ∧ (Warn ctx ws (s, log)).1 = errors.Join (Writer.returned u ws s)
      ∧ (∀ e : GoError, some e ∈ Writer.returned u ws s → (Warn ctx ws (s, log)).1 ≠ none)
      ∧ (∀ e : GoError, some e ∈ Writer.returned u ws s → e.comparable = true →
          errors.Is (Warn ctx ws (s, log)).1 (some e) = true) := by
  have hj : (Warn ctx ws (s, log)).1 = errors.Join (Writer.returned u ws s) := by
    simp [Warn, h, Warn.range_returned, errors.Join_filter_isSome, Writer.returned_traced]
  refine ⟨?_, ?_, hj, ?_, ?_⟩
  · rw [Warn_snd _ _ h, Writer.deliver_traced]
  · rw [hj]; exact errors.Join_eq_none_iff _
  · intro e he hn
    rw [hj] at hn
    have := (errors.Join_eq_none_iff _).1 hn _ he
    simp at this
  · intro e he hc
    rw [hj]
    exact errors.Is_Join_of_mem _ e hc he

/-- Witness of C15: the failing writer of `TestWarnError`. -/
theorem C15_Warn_writes_all_and_aggregates_witness :
    getWriter (Attach Context.Background
        (Writer.traced 0 (mockWriter (some (GoError.errorString 5)))))
      = some (Writer.traced 0 (mockWriter (some (GoError.errorString 5))))
    ∧ some (GoError.errorString 5)
        ∈ Writer.returned (mockWriter (some (GoError.errorString 5)))
            [Warning.mk 1 "test-warning"] []
    ∧ (GoError.errorString 5).comparable = true
    ∧ errors.Is (Warn (Attach Context.Background
          (Writer.traced 0 (mockWriter (some (GoError.errorString 5)))))
          [Warning.mk 1 "test-warning"] ([], [])).1 (some (GoError.errorString 5)) = true :=
  ⟨rfl, by simp [Writer.returned, mockWriter], rfl,
    (C15_Warn_writes_all_and_aggregates (mockWriter (some (GoError.errorString 5)))
      (Attach Context.Background
        (Writer.traced 0 (mockWriter (some (GoError.errorString 5))))) rfl
      [Warning.mk 1 "test-warning"] [] []).2.2.2.2 (GoError.errorString 5)
      (by simp [Writer.returned, mockWriter]) rfl⟩

/-- Counterexample to C15 as stated: the active writer returns a failure of a type that is
not comparable (a slice type with an `Error` method and no `Is` method); `Warn` returns a
non-nil error, yet `errors.Is` between it and that failure is false. -/
theorem C15_not_comparable_counterexample :
    some (GoError.custom 9 false [])
        ∈ Writer.returned (mockWriter (some (GoError.custom 9 false [])))
            [Warning.mk 1 "test-warning"] []
    ∧ (Warn (Attach Context.Background
          (Writer.traced 0 (mockWriter (some (GoError.custom 9 false [])))))
          [Warning.mk 1 "test-warning"] ([], [])).1 ≠ none
    ∧ errors.Is (Warn (Attach Context.Background
          (Writer.traced 0 (mockWriter (some (GoError.custom 9 false [])))))
          [Warning.mk 1 "test-warning"] ([], [])).1
        (some (GoError.custom 9 false [])) = false := by
  have hg : getWriter (Attach (Context.Background : Context (Traced (List Warning)))
      (Writer.traced 0 (mockWriter (some (GoError.custom 9 false [])))))
      = some (Writer.traced 0 (mockWriter (some (GoError.custom 9 false [])))) := rfl
  have hw : (Warn (Attach Context.Background
      (Writer.traced 0 (mockWriter (some (GoError.custom 9 false [])))))
      [Warning.mk 1 "test-warning"] ([], [])).1
      = some (GoError.joinError [GoError.custom 9 false []]) := by
    rw [Warn_fst _ _ hg]
    simp [Writer.returned, Writer.traced, mockWriter, errors.Join,
      List.reduceOption_cons_of_some]
  refine ⟨by simp [Writer.returned, mockWriter], ?_, ?_⟩
  · rw [hw]; simp
  · rw [hw]
    simp [errors.Is, errors.is, errors.isAny, GoError.comparable, GoError.elem]

/-- C16: for every Reader that yields the warnings `vs` and then signals exhaustion
(`io.EOF`, or any error for which `errors.Is(err, io.EOF)` holds), a Scanner created over it
returns true on each of the first `vs.length` calls of `Scan`, with `Warning()` after the
i-th call equal to the i-th warning, and false on the next call; `Err()` is nil before the
first call and after every one of these calls. -/
theorem C16_Scanner_iterates_then_stops {σ : Type} (r : Reader σ) (vs : List Warning)
    (s s1 s2 : σ) (w : Warning) (e : error) (hy : Reader.yields r vs s s1)
    (hr : r s1 = ((w, e), s2)) (he : errors.Is e (some io.EOF) = true) :
    (scanner.run (vs.length + 1) (NewScanner r) s).1
        = vs.map (fun v => (true, v, none)) ++ [(false, Warning.nil, none)]
      ∧ (NewScanner r).Err = none
      ∧ (scanner.run (vs.length + 1) (NewScanner r) s).2.1.Err = none
      ∧ (scanner.run (vs.length + 1) (NewScanner r) s).2.2 = s2 := by
  have h := Scan_run_exhausted r vs s s1 s2 w Warning.nil e hy hr he
  rw [show NewScanner r = (⟨r, Warning.nil, none⟩ : scanner σ) from rfl, h]
  exact ⟨rfl, rfl, rfl, rfl⟩

/-- Witness of C16: the reader of `TestScanner`. -/
theorem C16_Scanner_iterates_then_stops_witness :
    (scanner.run 3 (NewScanner mockReader)
        [(Warning.mk 1 "test-1", none), (Warning.mk 2 "test-2", none),
          (Warning.nil, some io.EOF)]).1
      = [(true, Warning.mk 1 "test-1", none), (true, Warning.mk 2 "test-2", none),
          (false, Warning.nil, none)] :=
  (C16_Scanner_iterates_then_stops mockReader
    [Warning.mk 1 "test-1", Warning.mk 2 "test-2"]
    [(Warning.mk 1 "test-1", none), (Warning.mk 2 "test-2", none),
      (Warning.nil, some io.EOF)] [(Warning.nil, some io.EOF)] []
    Warning.nil (some io.EOF) ⟨rfl, rfl, rfl⟩ rfl errors.Is_EOF_EOF).1

/-- C17 (amended): for every Reader and every Scanner over it that has recorded no error,
once a read made by `Scan` returns a failure `e` for which `errors.Is(e, io.EOF)` is false,
that `Scan` returns false and `Err()` returns `e`; every later `Scan`, in whatever store,
returns false and leaves the store as it is, so the reader is not called again, and `Err()`
keeps returning the same `e`. -/
theorem C17_Scan_failure_is_sticky {σ : Type} (sc : scanner σ) (s s1 : σ) (w : Warning)
    (e : GoError) (hsc : sc.err = none) (hr : sc.r s = ((w, some e), s1))
    (he : errors.Is (some e) (some io.EOF) = false) (n : Nat) (s' : σ) :
    sc.Scan s = (false, ⟨sc.r, sc.wrr, some e⟩, s1)
      ∧ (sc.Scan s).2.1.Err = some e
      ∧ scanner.run n (sc.Scan s).2.1 s'
        = (List.replicate n (false, sc.wrr, some e), ((sc.Scan s).2.1, s')) := by
  have hS : sc.Scan s = (false, ⟨sc.r, sc.wrr, some e⟩, s1) := by
    simp [scanner.Scan, hsc, hr, he]
  rw [hS]
  exact ⟨rfl, rfl, Scan_run_failed sc.r sc.wrr e n s'⟩

/-- Witness of C17: the reader of `TestScanner_UnexpectedError` after its two warnings. -/
theorem C17_Scan_failure_is_sticky_witness :
    (NewScanner mockReader).err = none
    ∧ ((NewScanner mockReader).Scan [(Warning.nil, some (GoError.errorString 5))]).1 = false
    ∧ ((NewScanner mockReader).Scan
        [(Warning.nil, some (GoError.errorString 5))]).2.1.Err = some (GoError.errorString 5)
    ∧ (scanner.run 2 ((NewScanner mockReader).Scan
        [(Warning.nil, some (GoError.errorString 5))]).2.1
        [(Warning.mk 1 "test-1", none)]).1
      = [(false, Warning.nil, some (GoError.errorString 5)),
          (false, Warning.nil, some (GoError.errorString 5))] := by
  have h := C17_Scan_failure_is_sticky (NewScanner mockReader)
    [(Warning.nil, some (GoError.errorString 5))] [] Warning.nil (GoError.errorString 5)
    rfl rfl (by simp [errors.Is, errors.is, io.EOF, GoError.beq, GoError.comparable]) 2
    [(Warning.mk 1 "test-1", none)]
  refine ⟨rfl, ?_, h.2.1, ?_⟩
  · rw [h.1]
  · rw [h.2.2]; rfl

/-- Counterexample to C17 as stated: the first read returns the failure
`fmt.Errorf("%w", io.EOF)`, which is not the value `io.EOF`; `Scan` returns false but
`Err()` is nil, and the next `Scan` calls the reader again and returns true. -/
theorem C17_wrapped_EOF_counterexample :
    GoError.wrapError 7 io.EOF ≠ io.EOF
    ∧ (scanner.run 2 (NewScanner mockReader)
        [(Warning.nil, some (GoError.wrapError 7 io.EOF)), (Warning.mk 1 "test-1", none)]).1
      = [(false, Warning.nil, none), (true, Warning.mk 1 "test-1", none)] := by
  refine ⟨?_, ?_⟩
  · intro h0; simp [io.EOF] at h0
  · simp [scanner.run, scanner.Scan, NewScanner, mockReader, scanner.Warning, scanner.Err,
      errors.Is, errors.is, io.EOF, GoError.beq, GoError.comparable]

/-- C18 (amended): for every Reader and every Scanner over it that has recorded no error,
when a read made by `Scan` signals exhaustion (`errors.Is(err, io.EOF)`), that `Scan`
returns false, records no error and resets the current warning to nil; this is not a
terminal state but the state of a new Scanner: a later `Scan` calls the reader again,
returns false if the reader signals exhaustion again, and returns true with the new warning
if the reader yields one. -/
theorem C18_Scan_exhaustion_is_not_terminal {σ : Type} (sc : scanner σ) (s s1 : σ)
    (w : Warning) (e : error) (hsc : sc.err = none) (hr : sc.r s = ((w, e), s1))
    (he : errors.Is e (some io.EOF) = true) :
    sc.Scan s = (false, NewScanner sc.r, s1)
      ∧ (∀ (t t1 : σ) (w1 : Warning) (e1 : error), sc.r t = ((w1, e1), t1) →
          errors.Is e1 (some io.EOF) = true →
          (sc.Scan s).2.1.Scan t = (false, NewScanner sc.r, t1))
      ∧ (∀ (t t1 : σ) (v : Warning), sc.r t = ((v, none), t1) →
          (sc.Scan s).2.1.Scan t = (true, ⟨sc.r, v, none⟩, t1)) := by
  have hS : sc.Scan s = (false, NewScanner sc.r, s1) := by
    simp [scanner.Scan, hsc, hr, he, NewScanner]
  rw [hS]
  refine ⟨rfl, ?_, ?_⟩
  · intro t t1 w1 e1 h1 h2
    simp [scanner.Scan, NewScanner, h1, h2]
  · intro t t1 v h1
    simp [scanner.Scan, NewScanner, h1, errors.Is_nil_EOF]

/-- Witness of C18: the reader of `TestScanner_Empty`, exhausted on the first read. -/
theorem C18_Scan_exhaustion_is_not_terminal_witness :
    (NewScanner mockReader).err = none
    ∧ (NewScanner mockReader).Scan [(Warning.nil, some io.EOF)]
      = (false, NewScanner mockReader, []) :=
  ⟨rfl, (C18_Scan_exhaustion_is_not_terminal (NewScanner mockReader)
    [(Warning.nil, some io.EOF)] [] Warning.nil (some io.EOF) rfl rfl errors.Is_EOF_EOF).1⟩

/-- Counterexample to C18 as stated: a Scanner over an empty open Collector returns false
on the first `Scan` (the collector signals `io.EOF`); after a warning is written to the
collector, the next `Scan` returns true and `Warning()` is that warning. -/
theorem C18_scan_after_EOF_counterexample :
    ((NewScanner Collector.reader).Scan NewCollector).1 = false
    ∧ (((NewScanner Collector.reader).Scan NewCollector).2.1.Scan
        (Collector.WriteWarning ((NewScanner Collector.reader).Scan NewCollector).2.2
          (Warning.mk 1 "late")).2).1 = true
    ∧ (((NewScanner Collector.reader).Scan NewCollector).2.1.Scan
        (Collector.WriteWarning ((NewScanner Collector.reader).Scan NewCollector).2.2
          (Warning.mk 1 "late")).2).2.1.Warning = Warning.mk 1 "late" := by
  simp [scanner.Scan, NewScanner, NewCollector, Collector.reader, Collector.ReadWarning,
    Collector.WriteWarning, scanner.Warning, errors.Is_EOF_EOF, errors.Is_nil_EOF]

/-- C19: for every context whose active writer is `u` (traced as writer 0), every fold
function `fn` and every list of warnings written through the context returned by `Reduce`,
the first `flush` returns and leaves the private collector closed, and calling `flush`
again performs no write: any number of calls of `flush` leaves the store, and with it what
`u` has received, exactly as the first call left it. -/
theorem C19_second_flush_writes_nothing {σ T : Type} (zero : T) (toWarning : T → Warning)
    (u : Writer σ) (ctx : Context (Traced σ))
    (h : getWriter ctx = some (Writer.traced 0 u)) (fn : T → Warning → T)
    (bs : List (List Warning)) (s : σ) (log : List Event) (k : Nat) :
    ∃ st : Traced σ × Collector,
      (Reduce zero toWarning ctx fn (s, log)).1.2 (bs.flatten.length + 1 + k)
          (Warn.each (Reduce zero toWarning ctx fn (s, log)).1.1 bs
            (Reduce zero toWarning ctx fn (s, log)).2) = some st
        ∧ st.2 = ⟨[], true⟩
        ∧ (∀ fuel : Nat,
            (Reduce zero toWarning ctx fn (s, log)).1.2 (fuel + 1) st = some st)
        ∧ (∀ n : Nat,
            Reduce.flushTimes (Reduce zero toWarning ctx fn (s, log)).1.2
                (bs.flatten.length + 1 + k) (n + 1)
                (Warn.each (Reduce zero toWarning ctx fn (s, log)).1.1 bs
                  (Reduce zero toWarning ctx fn (s, log)).2) = some st) := by
  rw [Reduce_of_writer zero toWarning ctx _ h fn (s, log)]
  simp only
  rw [Warn.each_Reduce_input, Reduce.flush_open]
  refine ⟨_, rfl, rfl, ?_, ?_⟩
  · intro fuel
    exact Reduce.flush_closed _ _ _ _ _ _ _
  · intro n
    have e : bs.flatten.length + 1 + k = (bs.flatten.length + k) + 1 := by omega
    simp only [Reduce.flushTimes, Reduce.flush_open, Option.some_bind]
    rw [e]
    exact Reduce.flushTimes_closed _ _ _ _ _ _ _ n

/-- Witness of C19: the writer and the warnings of `TestReduce`; three calls of `flush`
deliver the one folded warning once. -/
theorem C19_second_flush_writes_nothing_witness :
    getWriter (Attach Context.Background (Writer.traced 0 (mockWriter none)))
        = some (Writer.traced 0 (mockWriter none))
    ∧ ∃ st : Traced (List Warning) × Collector,
      Reduce.flushTimes (Reduce (0 : Nat) (fun acc => Warning.mk acc "reduced")
            (Attach Context.Background (Writer.traced 0 (mockWriter none)))
            (fun acc _ => acc + 1) ([], [])).1.2 3 3
          (Warn.each (Reduce (0 : Nat) (fun acc => Warning.mk acc "reduced")
              (Attach Context.Background (Writer.traced 0 (mockWriter none)))
              (fun acc _ => acc + 1) ([], [])).1.1
            [[Warning.mk 1 "this"], [Warning.mk 2 "that"]]
            (Reduce (0 : Nat) (fun acc => Warning.mk acc "reduced")
              (Attach Context.Background (Writer.traced 0 (mockWriter none)))
              (fun acc _ => acc + 1) ([], [])).2) = some st
        ∧ st.2 = ⟨[], true⟩ := by
  obtain ⟨st, _, h2, _, h4⟩ := C19_second_flush_writes_nothing (0 : Nat)
    (fun acc => Warning.mk acc "reduced") (mockWriter none)
    (Attach Context.Background (Writer.traced 0 (mockWriter none))) rfl
    (fun acc _ => acc + 1) [[Warning.mk 1 "this"], [Warning.mk 2 "that"]] [] [] 0
  exact ⟨rfl, st, h4 2, h2⟩

/-- C20 (amended): when a writer is active the core hands every failure of a write back to
the caller, except in the `flush` returned by `Reduce`. For every context whose active
writer is `u` (traced as writer 0): `Warn` through the context, and through `Map`, `Filter`
and `Tap` of it, returns the `errors.Join` of exactly the errors `u` returned for the
warnings it was called with, a MultiWriter returns the `errors.Join` of the errors its
delegates returned, and `errors.Join` is nil only when all of them are nil. But for every
non-empty list of warnings written through the context returned by `Reduce`, `flush` calls
`u` once with the folded warning and discards what `u` returns: `flush` has no result
besides its effect on the store, and that effect is the same as with the writer
`Writer.mute u`, which acts as `u` and returns nil. A failure of `u` during `flush` is
therefore not surfaced to the caller. -/
theorem C20_flush_discards_the_failure {σ T : Type} (zero : T) (toWarning : T → Warning)
    (u : Writer σ) (ctx ctx1 : Context (Traced σ))
    (h : getWriter ctx = some (Writer.traced 0 u))
    (h1 : getWriter ctx1 = some (Writer.traced 0 (Writer.mute u))) (fn : T → Warning → T)
    (bs : List (List Warning)) (hne : bs.flatten ≠ []) (s : σ) (log : List Event)
    (k : Nat) :
    (Reduce zero toWarning ctx fn (s, log)).1.2 (bs.flatten.length + 1 + k)
          (Warn.each (Reduce zero toWarning ctx fn (s, log)).1.1 bs
            (Reduce zero toWarning ctx fn (s, log)).2)
        = some (((u (toWarning (bs.flatten.foldl fn zero)) s).2,
            log ++ [Event.WriteWarning 0 (toWarning (bs.flatten.foldl fn zero))]),
            ⟨[], true⟩)
      ∧ (Reduce zero toWarning ctx1 fn (s, log)).1.2 (bs.flatten.length + 1 + k)
          (Warn.each (Reduce zero toWarning ctx1 fn (s, log)).1.1 bs
            (Reduce zero toWarning ctx1 fn (s, log)).2)
        = (Reduce zero toWarning ctx fn (s, log)).1.2 (bs.flatten.length + 1 + k)
          (Warn.each (Reduce zero toWarning ctx fn (s, log)).1.1 bs
            (Reduce zero toWarning ctx fn (s, log)).2)
      ∧ (∀ ws : List Warning,
          (Warn ctx ws (s, log)).1 = errors.Join (Writer.returned u ws s))
      ∧ (∀ (f : Warning → Warning) (ws : List Warning),
          (Warn (Map ctx f) ws (s, log)).1
            = errors.Join (Writer.returned u (ws.map f) s))
      ∧ (∀ (p : Warning → Bool) (ws : List Warning),
          (Warn (Filter ctx p) ws (s, log)).1
            = errors.Join (Writer.returned u (ws.filter p) s))
      ∧ (∀ (g : Warning → σ → σ) (ws : List Warning),
          (Warn (Tap ctx (Event.tapped g)) ws (s, log)).1
            = errors.Join (Writer.returned (fun wrr t => u wrr (g wrr t)) ws s))
      ∧ (∀ (ds : List (Writer σ)) (w : Warning) (t : σ),
          (NewMultiWriter ds w t).1 = errors.Join (Writer.each w ds t).1)
      ∧ (∀ errs : List error, errors.Join errs = none ↔ ∀ e ∈ errs, e = none) := by
  refine ⟨?_, ?_, ?_, ?_, ?_, ?_, ?_, errors.Join_eq_none_iff⟩
  · rw [Reduce_of_writer zero toWarning ctx _ h fn (s, log)]
    simp only
    rw [Warn.each_Reduce_input, Reduce.flush_open]
    cases hws : bs.flatten with
    | nil => exact absurd hws hne
    | cons a l => rfl
  · rw [Reduce_of_writer zero toWarning ctx _ h fn (s, log),
      Reduce_of_writer zero toWarning ctx1 _ h1 fn (s, log)]
    simp only
    rw [Warn.each_Reduce_input, Warn.each_Reduce_input, Reduce.flush_open,
      Reduce.flush_open]
    cases hws : bs.flatten with
    | nil => exact absurd hws hne
    | cons a l => rfl
  · intro ws
    rw [Warn_fst _ _ h, Writer.returned_traced]
  · intro f ws
    have hg : getWriter (Map ctx f)
        = some (mapWriter.WriteWarning (Writer.traced 0 u) f) := by
      simp [Map, h, getWriter_resetWriter]
    rw [Warn_fst _ _ hg, Writer.returned_mapWriter, Writer.returned_traced]
  · intro p ws
    have hg : getWriter (Filter ctx p)
        = some (filterWriter.WriteWarning (Writer.traced 0 u) p) := by
      simp [Filter, h, getWriter_resetWriter]
    rw [Warn_fst _ _ hg,
      errors.Join_congr _ _ (Writer.returned_filterWriter (Writer.traced 0 u) p ws (s, log)),
      Writer.returned_traced]
  · intro g ws
    have hg : getWriter (Tap ctx (Event.tapped g))
        = some (tapWriter.WriteWarning (Writer.traced 0 u) (Event.tapped g)) := by
      simp [Tap, h, getWriter_resetWriter]
    rw [Warn_fst _ _ hg, Writer.returned_tapWriter_traced]
  · intro ds w t
    simp [NewMultiWriter, multiWriter.WriteWarning, multiWriter.range_eq,
      errors.Join_filter_isSome]

/-- Witness of C20: the failing writer of `TestWarnError` under `Reduce`. -/
theorem C20_flush_discards_the_failure_witness :
    getWriter (Attach Context.Background
        (Writer.traced 0 (mockWriter (some (GoError.errorString 5)))))
      = some (Writer.traced 0 (mockWriter (some (GoError.errorString 5))))
    ∧ [[Warning.mk 1 "this"]].flatten ≠ []
    ∧ (Reduce (0 : Nat) (fun acc => Warning.mk acc "reduced")
          (Attach Context.Background
            (Writer.traced 0 (mockWriter (some (GoError.errorString 5)))))
          (fun acc _ => acc + 1) ([], [])).1.2 2
        (Warn.each (Reduce (0 : Nat) (fun acc => Warning.mk acc "reduced")
            (Attach Context.Background
              (Writer.traced 0 (mockWriter (some (GoError.errorString 5)))))
            (fun acc _ => acc + 1) ([], [])).1.1 [[Warning.mk 1 "this"]]
          (Reduce (0 : Nat) (fun acc => Warning.mk acc "reduced")
            (Attach Context.Background
              (Writer.traced 0 (mockWriter (some (GoError.errorString 5)))))
            (fun acc _ => acc + 1) ([], [])).2)
      = some (([], [Event.WriteWarning 0 (Warning.mk 1 "reduced")]), ⟨[], true⟩) :=
  ⟨rfl, by simp,
    (C20_flush_discards_the_failure (0 : Nat) (fun acc => Warning.mk acc "reduced")
      (mockWriter (some (GoError.errorString 5)))
      (Attach Context.Background
        (Writer.traced 0 (mockWriter (some (GoError.errorString 5)))))
      (Attach Context.Background
        (Writer.traced 0 (Writer.mute (mockWriter (some (GoError.errorString 5))))))
      rfl rfl (fun acc _ => acc + 1) [[Warning.mk 1 "this"]] (by simp) [] [] 0).1⟩

/-- Counterexample to C20 as stated: the active writer fails on the folded warning, and the
outcome of `flush` is the same as with a writer that accepts it and returns nil; `flush`
hands nothing of the failure to its caller. -/
theorem C20_flush_failure_counterexample :
    (mockWriter (some (GoError.errorString 5)) (Warning.mk 1 "reduced") []).1
        = some (GoError.errorString 5)
    ∧ (Reduce (0 : Nat) (fun acc => Warning.mk acc "reduced")
          (Attach Context.Background
            (Writer.traced 0 (mockWriter (some (GoError.errorString 5)))))
          (fun acc _ => acc + 1) ([], [])).1.2 2
        (Warn.each (Reduce (0 : Nat) (fun acc => Warning.mk acc "reduced")
            (Attach Context.Background
              (Writer.traced 0 (mockWriter (some (GoError.errorString 5)))))
            (fun acc _ => acc + 1) ([], [])).1.1 [[Warning.mk 1 "this"]]
          (Reduce (0 : Nat) (fun acc => Warning.mk acc "reduced")
            (Attach Context.Background
              (Writer.traced 0 (mockWriter (some (GoError.errorString 5)))))
            (fun acc _ => acc + 1) ([], [])).2)
      = (Reduce (0 : Nat) (fun acc => Warning.mk acc "reduced")
          (Attach Context.Background
            (Writer.traced 0 (fun _ buf => ((none : error), buf))))
          (fun acc _ => acc + 1) ([], [])).1.2 2
        (Warn.each (Reduce (0 : Nat) (fun acc => Warning.mk acc "reduced")
            (Attach Context.Background
              (Writer.traced 0 (fun _ buf => ((none : error), buf))))
            (fun acc _ => acc + 1) ([], [])).1.1 [[Warning.mk 1 "this"]]
          (Reduce (0 : Nat) (fun acc => Warning.mk acc "reduced")
            (Attach Context.Background
              (Writer.traced 0 (fun _ buf => ((none : error), buf))))
            (fun acc _ => acc + 1) ([], [])).2) :=
  ⟨rfl, rfl⟩

/-- C21: for every context whose active writer is `u` (traced as writer 0), every format
string and every argument list, `Warnf` performs exactly one write, of one new warning whose
message is `fmt.Sprintf` (an abstract function here) of the format and of the argument list
in which every argument that is itself a Warning is replaced by its message text `Warn()`;
`Warnf` returns what `Warn` returns for that one warning. In particular, for a formatting
function that renders `"%s"` of one string as that string, `Warnf(ctx, "%s", w)` delivers a
warning with the message of `w`. -/
theorem C21_Warnf_writes_one_formatted_warning {σ : Type} (u : Writer σ)
    (ctx : Context (Traced σ)) (h : getWriter ctx = some (Writer.traced 0 u))
    (Sprintf : String → List Any → String) (ref : Nat) (format : String) (args : List Any)
    (s : σ) (log : List Event) :
    (Warnf Sprintf ref ctx format args (s, log)).2
        = ((u (Warning.mk ref (Sprintf format (args.map Any.text))) s).2,
            log ++ [Event.WriteWarning 0
              (Warning.mk ref (Sprintf format (args.map Any.text)))])
      ∧ (Warning.mk ref (Sprintf format (args.map Any.text))).Warn
        = some (Sprintf format (args.map Any.text))
      ∧ Warnf Sprintf ref ctx format args (s, log)
        = Warn ctx [Warning.mk ref (Sprintf format (args.map Any.text))] (s, log)
      ∧ (∀ (r : Nat) (msg : String), (∀ m : String, Sprintf "%s" [Any.string m] = m) →
          (Warnf Sprintf ref ctx "%s" [Any.warning (Warning.mk r msg)] (s, log)).2
              = ((u (Warning.mk ref msg) s).2,
                  log ++ [Event.WriteWarning 0 (Warning.mk ref msg)])
            ∧ (Warning.mk ref msg).Warn = (Warning.mk r msg).Warn) := by
  have hW : ∀ (fmt : String) (as : List Any),
      Warnf Sprintf ref ctx fmt as (s, log)
        = Warn ctx [Warning.mk ref (Sprintf fmt (as.map Any.text))] (s, log) := by
    intro fmt as
    simp only [Warnf, Warnf.args_eq_text]
  have hS : ∀ wrr : Warning,
      (Warn ctx [wrr] (s, log)).2 = ((u wrr s).2, log ++ [Event.WriteWarning 0 wrr]) := by
    intro wrr
    rw [Warn_snd _ _ h, Writer.deliver_traced]
    rfl
  refine ⟨?_, rfl, hW format args, ?_⟩
  · rw [hW, hS]
  · intro r msg hf
    refine ⟨?_, rfl⟩
    rw [hW, hS]
    simp [Any.text, Warning.Warn, hf]

/-- Witness of C21: a call like that of `TestWarnf`, with a formatting function that appends
the string arguments to the format. -/
theorem C21_Warnf_writes_one_formatted_warning_witness :
    getWriter (Attach Context.Background (Writer.traced 0 (mockWriter none)))
        = some (Writer.traced 0 (mockWriter none))
    ∧ (Warnf (fun format args => args.foldl (fun acc a =>
            match a with
            | Any.string str => acc ++ str
            | _ => acc) format) 7
          (Attach Context.Background (Writer.traced 0 (mockWriter none)))
          "test-warning: " [Any.warning (Warning.mk 1 "sub-warning")] ([], [])).2
        = ([Warning.mk 7 "test-warning: sub-warning"],
            [Event.WriteWarning 0 (Warning.mk 7 "test-warning: sub-warning")]) :=
  ⟨rfl, (C21_Warnf_writes_one_formatted_warning (mockWriter none)
    (Attach Context.Background (Writer.traced 0 (mockWriter none))) rfl
    (fun format args => args.foldl (fun acc a =>
      match a with
      | Any.string str => acc ++ str
      | _ => acc) format) 7
    "test-warning: " [Any.warning (Warning.mk 1 "sub-warning")] [] []).1⟩

/-- C23: the stage installed last sees a written warning first. For every context whose
active writer is `u` (traced as writer 0), every function `f`, every predicate `p` and every
list of warnings written via `Warn`, in one call or split into the successive calls `bs`:
through `Filter(Map(ctx, f), p)`, `u` receives `f(w)` for exactly the written `w` that
satisfy `p`, in order (the predicate sees the original warnings); through
`Map(Filter(ctx, p), f)`, `u` receives `f(w)` for exactly the written `w` with `p(f(w))`. -/
theorem C23_stages_run_in_reverse_installation_order {σ : Type} (u : Writer σ)
    (ctx : Context (Traced σ)) (h : getWriter ctx = some (Writer.traced 0 u))
    (f : Warning → Warning) (p : Warning → Bool) (bs : List (List Warning)) (s : σ)
    (log : List Event) :
    Warn.each (Filter (Map ctx f) p) bs (s, log)
        = (Writer.deliver u ((bs.flatten.filter p).map f) s,
            log ++ ((bs.flatten.filter p).map f).map (Event.WriteWarning 0))
      ∧ Warn.each (Map (Filter ctx p) f) bs (s, log)
        = (Writer.deliver u ((bs.flatten.filter (fun w => p (f w))).map f) s,
            log ++ ((bs.flatten.filter (fun w => p (f w))).map f).map
              (Event.WriteWarning 0)) := by
  have hM : getWriter (Map ctx f)
      = some (mapWriter.WriteWarning (Writer.traced 0 u) f) := by
    simp [Map, h, getWriter_resetWriter]
  have hFM : getWriter (Filter (Map ctx f) p)
      = some (filterWriter.WriteWarning (mapWriter.WriteWarning (Writer.traced 0 u) f) p) := by
    simp [Filter, hM, getWriter_resetWriter]
  have hF : getWriter (Filter ctx p)
      = some (filterWriter.WriteWarning (Writer.traced 0 u) p) := by
    simp [Filter, h, getWriter_resetWriter]
  have hMF : getWriter (Map (Filter ctx p) f)
      = some (mapWriter.WriteWarning (filterWriter.WriteWarning (Writer.traced 0 u) p) f) := by
    simp [Map, hF, getWriter_resetWriter]
  refine ⟨?_, ?_⟩
  · rw [Warn.each_eq_deliver _ _ hFM, Writer.deliver_filterWriter, Writer.deliver_mapWriter,
      Writer.deliver_traced]
  · have e : (bs.flatten.filter (fun w => p (f w))).map f = (bs.flatten.map f).filter p := by
      rw [List.filter_map]; rfl
    rw [Warn.each_eq_deliver _ _ hMF, Writer.deliver_mapWriter, Writer.deliver_filterWriter,
      Writer.deliver_traced, e]

/-- Witness of C23: a function that renames every warning to `"ignore"` and the predicate
of `TestFilter`; with the filter installed last the warning `"this"` passes and is renamed,
with the map installed last nothing passes. -/
theorem C23_stages_run_in_reverse_installation_order_witness :
    getWriter (Attach Context.Background (Writer.traced 0 (mockWriter none)))
        = some (Writer.traced 0 (mockWriter none))
    ∧ Warn.each (Filter (Map (Attach Context.Background (Writer.traced 0 (mockWriter none)))
          (fun _ => Warning.mk 2 "ignore")) (fun w => decide (w ≠ Warning.mk 2 "ignore")))
        [[Warning.mk 1 "this"]] ([], [])
      = ([Warning.mk 2 "ignore"], [Event.WriteWarning 0 (Warning.mk 2 "ignore")])
    ∧ Warn.each (Map (Filter (Attach Context.Background (Writer.traced 0 (mockWriter none)))
          (fun w => decide (w ≠ Warning.mk 2 "ignore"))) (fun _ => Warning.mk 2 "ignore"))
        [[Warning.mk 1 "this"]] ([], [])
      = ([], []) :=
  ⟨rfl,
    (C23_stages_run_in_reverse_installation_order (mockWriter none)
      (Attach Context.Background (Writer.traced 0 (mockWriter none))) rfl
      (fun _ => Warning.mk 2 "ignore") (fun w => decide (w ≠ Warning.mk 2 "ignore"))
      [[Warning.mk 1 "this"]] [] []).1,
    (C23_stages_run_in_reverse_installation_order (mockWriter none)
      (Attach Context.Background (Writer.traced 0 (mockWriter none))) rfl
      (fun _ => Warning.mk 2 "ignore") (fun w => decide (w ≠ Warning.mk 2 "ignore"))
      [[Warning.mk 1 "this"]] [] []).2⟩

/-- C24: attaching after a `Detach` starts a fresh pipeline. For every context whose active
writer is `u1` (traced as writer 0) and every writer `u2` (traced as writer 1),
`Attach(Detach(ctx), u2)` binds `u2` itself, not a MultiWriter, and every warning written via
`Warn` through it is delivered to `u2` exactly once while `u1` receives nothing. -/
theorem C24_Attach_after_Detach_is_fresh {σ : Type} (u1 u2 : Writer σ)
    (ctx : Context (Traced σ)) (h : getWriter ctx = some (Writer.traced 0 u1))
    (bs : List (List Warning)) (s : σ) (log : List Event) :
    getWriter (Attach (Detach ctx) (Writer.traced 1 u2)) = some (Writer.traced 1 u2)
      ∧ Attach (Detach ctx) (Writer.traced 1 u2)
        = Context.WithValue (Context.WithValue ctx none) (some (Writer.traced 1 u2))
      ∧ Warn.each (Attach (Detach ctx) (Writer.traced 1 u2)) bs (s, log)
        = (Writer.deliver u2 bs.flatten s, log ++ bs.flatten.map (Event.WriteWarning 1))
      ∧ Event.ofWriter 0 (bs.flatten.map (Event.WriteWarning 1)) = []
      ∧ Event.ofWriter 1 (bs.flatten.map (Event.WriteWarning 1))
        = bs.flatten.map (Event.WriteWarning 1) := by
  have hD : Detach ctx = Context.WithValue ctx none := by
    simp only [Detach, h, setWriter]
  have hA : Attach (Detach ctx) (Writer.traced 1 u2)
      = Context.WithValue (Context.WithValue ctx none) (some (Writer.traced 1 u2)) := by
    rw [hD]; rfl
  refine ⟨getWriter_Attach_Detach ctx _, hA, ?_, ?_, ?_⟩
  · rw [Warn.each_eq_deliver _ _ (getWriter_Attach_Detach ctx _), Writer.deliver_traced]
  · exact Event.ofWriter_map_other 0 1 (by decide) _
  · exact Event.ofWriter_map_same 1 _

/-- Witness of C24: the writer of `TestDetach` detached, then a second writer attached; the
two writers keep separate buffers. -/
theorem C24_Attach_after_Detach_is_fresh_witness :
    getWriter (Attach Context.Background
        (Writer.traced 0 (fun wrr (st : List Warning × List Warning) =>
          ((none : error), (st.1 ++ [wrr], st.2)))))
      = some (Writer.traced 0 (fun wrr (st : List Warning × List Warning) =>
          ((none : error), (st.1 ++ [wrr], st.2))))
    ∧ Warn.each (Attach (Detach (Attach Context.Background
          (Writer.traced 0 (fun wrr (st : List Warning × List Warning) =>
            ((none : error), (st.1 ++ [wrr], st.2))))))
          (Writer.traced 1 (fun wrr (st : List Warning × List Warning) =>
            ((none : error), (st.1, st.2 ++ [wrr])))))
        [[Warning.mk 1 "test-warning"]] (([], []), [])
      = (([], [Warning.mk 1 "test-warning"]),
          [Event.WriteWarning 1 (Warning.mk 1 "test-warning")]) :=
  ⟨rfl, (C24_Attach_after_Detach_is_fresh
    (fun wrr (st : List Warning × List Warning) => ((none : error), (st.1 ++ [wrr], st.2)))
    (fun wrr (st : List Warning × List Warning) => ((none : error), (st.1, st.2 ++ [wrr])))
    (Attach Context.Background
      (Writer.traced 0 (fun wrr (st : List Warning × List Warning) =>
        ((none : error), (st.1 ++ [wrr], st.2)))))
    rfl [[Warning.mk 1 "test-warning"]] ([], []) []).2.2.1⟩

/-- C25: for every context whose active writer is `u` (traced as writer 0) and every fold
function `fn`, once the `flush` returned by `Reduce` has been called (after the warnings
`bs` were written), every `Warn` of a non-empty list `ws` through the reduced context
returns a non-nil error for which `errors.Is(err, ErrClosed)` holds and leaves the store as
it was, so `ws` is neither delivered to `u` nor buffered; every later `flush` leaves the
store as it was too, so no later `flush` delivers `ws`. -/
theorem C25_Warn_after_flush_fails_closed {σ T : Type} (zero : T) (toWarning : T → Warning)
    (u : Writer σ) (ctx : Context (Traced σ))
    (h : getWriter ctx = some (Writer.traced 0 u)) (fn : T → Warning → T)
    (bs : List (List Warning)) (ws : List Warning) (hws : ws ≠ []) (s : σ)
    (log : List Event) (k : Nat) :
    ∃ st : Traced σ × Collector,
      (Reduce zero toWarning ctx fn (s, log)).1.2 (bs.flatten.length + 1 + k)
          (Warn.each (Reduce zero toWarning ctx fn (s, log)).1.1 bs
            (Reduce zero toWarning ctx fn (s, log)).2) = some st
        ∧ (Warn (Reduce zero toWarning ctx fn (s, log)).1.1 ws st).1 ≠ none
        ∧ errors.Is (Warn (Reduce zero toWarning ctx fn (s, log)).1.1 ws st).1
            (some ErrClosed) = true
        ∧ (Warn (Reduce zero toWarning ctx fn (s, log)).1.1 ws st).2 = st
        ∧ (∀ fuel n : Nat,
            Reduce.flushTimes (Reduce zero toWarning ctx fn (s, log)).1.2 (fuel + 1) n
                (Warn (Reduce zero toWarning ctx fn (s, log)).1.1 ws st).2 = some st) := by
  rw [Reduce_of_writer zero toWarning ctx _ h fn (s, log)]
  simp only
  rw [Warn.each_Reduce_input, Reduce.flush_open]
  refine ⟨_, rfl, ?_⟩
  have hg := getWriter_resetWriter (ctx.lift : Context (Traced σ × Collector))
    (some Reduce.input)
  have hmem : some ErrClosed ∈ ws.map (fun _ => some ErrClosed) := by
    cases ws with
    | nil => exact absurd rfl hws
    | cons a l => simp
  have h2 : ∀ t : Traced σ,
      (Warn (resetWriter ctx.lift (some Reduce.input)) ws (t, ⟨[], true⟩)).2
        = (t, ⟨[], true⟩) := by
    intro t
    rw [Warn_snd _ _ hg, Writer.deliver_input_closed]
  have h1 : ∀ t : Traced σ,
      (Warn (resetWriter ctx.lift (some Reduce.input)) ws (t, ⟨[], true⟩)).1
        = errors.Join (ws.map (fun _ => some ErrClosed)) := by
    intro t
    rw [Warn_fst _ _ hg, Writer.returned_input_closed]
  refine ⟨?_, ?_, h2 _, ?_⟩
  · rw [h1]
    intro hn
    have := (errors.Join_eq_none_iff _).1 hn _ hmem
    simp at this
  · rw [h1]
    exact errors.Is_Join_of_mem _ ErrClosed rfl hmem
  · intro fuel n
    rw [h2]
    exact Reduce.flushTimes_closed _ _ _ _ _ _ _ n

/-- Witness of C25: the writer and the warnings of `TestReduce`, then one more warning
written after `flush`. -/
theorem C25_Warn_after_flush_fails_closed_witness :
    getWriter (Attach Context.Background (Writer.traced 0 (mockWriter none)))
        = some (Writer.traced 0 (mockWriter none))
    ∧ [Warning.mk 3 "late"] ≠ []
    ∧ ∃ st : Traced (List Warning) × Collector,
      (Reduce (0 : Nat) (fun acc => Warning.mk acc "reduced")
            (Attach Context.Background (Writer.traced 0 (mockWriter none)))
            (fun acc _ => acc + 1) ([], [])).1.2 3
          (Warn.each (Reduce (0 : Nat) (fun acc => Warning.mk acc "reduced")
              (Attach Context.Background (Writer.traced 0 (mockWriter none)))
              (fun acc _ => acc + 1) ([], [])).1.1
            [[Warning.mk 1 "this"], [Warning.mk 2 "that"]]
            (Reduce (0 : Nat) (fun acc => Warning.mk acc "reduced")
              (Attach Context.Background (Writer.traced 0 (mockWriter none)))
              (fun acc _ => acc + 1) ([], [])).2) = some st
        ∧ errors.Is (Warn (Reduce (0 : Nat) (fun acc => Warning.mk acc "reduced")
              (Attach Context.Background (Writer.traced 0 (mockWriter none)))
              (fun acc _ => acc + 1) ([], [])).1.1 [Warning.mk 3 "late"] st).1
            (some ErrClosed) = true := by
  obtain ⟨st, h1, _, h3, _, _⟩ := C25_Warn_after_flush_fails_closed (0 : Nat)
    (fun acc => Warning.mk acc "reduced") (mockWriter none)
    (Attach Context.Background (Writer.traced 0 (mockWriter none))) rfl
    (fun acc _ => acc + 1) [[Warning.mk 1 "this"], [Warning.mk 2 "that"]]
    [Warning.mk 3 "late"] (by simp) [] [] 0
  exact ⟨rfl, by simp, st, h1, h3⟩

end warnings
